import Mathlib

/-!
# Verification of the vscode-postgres results-view rendering pipeline

Shallow embedding of `src/resultsview/common.ts`: the command dispatcher
(`getResultsTables`), the row/table renderer (`generateSelectTableResult`
and friends), the row-count summary (`getRowCountResult`) and the document
assembler (`generateResultsHtml`).

Conventions of the embedding:
* TypeScript strings are Lean `String`s; the rendered document is built by
  string concatenation exactly as the source builds it with `+=`.
* JavaScript runtime values (the raw cell payloads and the caller-supplied
  state blob) are modelled by the inductive type `JSValue`; JavaScript
  truthiness is `jsTruthy`.
* `fields` and `rows` may be absent in a `StatementResult`, so they are
  modelled as `Option` (absent = `none`); the guards
  `result.fields && result.fields.length` become `jsLenTruthy`.  Where the
  source reads the collections without a guard (the SELECT header loop and
  the EXPLAIN join) the embedding reads `·.getD []`; theorems about those
  paths carry an explicit presence hypothesis so they never rely on this
  totalisation (in JavaScript an absent collection would raise a TypeError
  there, outside the documented data model).
* The external field formatter `formatFieldValue` is an arbitrary function
  parameter `fmt`; a `none`/empty result renders as the empty cell, which is
  exactly the `formatted ? formatted : ''` check of the source.
* `JSON.stringify` / number-to-string conversion are the JavaScript
  builtins; they are embedded as `stringifyJson` / `natRepr` below.
-/

/-- JavaScript runtime values, as far as the renderer can observe them:
`undefined`, `null`, booleans, (integral) numbers, strings, arrays and
plain objects. -/
inductive JSValue where
  | undefined : JSValue
  | null : JSValue
  | bool : Bool → JSValue
  | num : Int → JSValue
  | str : String → JSValue
  | arr : List JSValue → JSValue
  | obj : List (String × JSValue) → JSValue
deriving Repr

/-- JavaScript truthiness of a value (`undefined`, `null`, `false`, `0` and
`""` are falsy; every array or object is truthy). -/
def jsTruthy : JSValue → Bool
  | .undefined => false
  | .null => false
  | .bool b => b
  | .num n => n != 0
  | .str s => s ≠ ""
  | .arr _ => true
  | .obj _ => true

/-- Decimal digits of a natural number, most significant first
(JavaScript's number-to-string conversion for the non-negative integers
appearing in the renderer). -/
def natToDigits (n : Nat) : List Char :=
  if _h : n < 10 then [Nat.digitChar n]
  else natToDigits (n / 10) ++ [Nat.digitChar (n % 10)]
decreasing_by exact Nat.div_lt_self (by omega) (by omega)

/-- JavaScript decimal rendering of a natural number. -/
def natRepr (n : Nat) : String := ⟨natToDigits n⟩

/-- JavaScript decimal rendering of an integer. -/
def intRepr (n : Int) : String :=
  if n < 0 then "-" ++ natRepr n.natAbs else natRepr n.natAbs

/-- Join a list of strings with a separator between consecutive elements
(none before the first, none after the last): the semantics of JavaScript
`Array.prototype.join`, and the shape in which `getResultsTables` places
its dividers. -/
def sepJoin (sep : String) : List String → String
  | [] => ""
  | [x] => x
  | x :: y :: rest => x ++ sep ++ sepJoin sep (y :: rest)

/-- Concatenation of a list of strings, used to restate the imperative
body-row loop as a positional map. -/
def strConcat : List String → String
  | [] => ""
  | x :: xs => x ++ strConcat xs

mutual
/-- JavaScript `String(v)` coercion: `undefined`/`null` spelled out,
arrays comma-joined (with `null`/`undefined` elements blank), objects
rendered as `[object Object]`. -/
def jsToString : JSValue → String
  | .undefined => "undefined"
  | .null => "null"
  | .bool true => "true"
  | .bool false => "false"
  | .num n => intRepr n
  | .str s => s
  | .arr l => sepJoin "," (jsJoinItems l)
  | .obj _ => "[object Object]"

/-- Element conversion used by JavaScript `Array.prototype.join`:
`null` and `undefined` become the empty string. -/
def jsJoinItems : List JSValue → List String
  | [] => []
  | .undefined :: vs => "" :: jsJoinItems vs
  | .null :: vs => "" :: jsJoinItems vs
  | v :: vs => jsToString v :: jsJoinItems vs
end

/-- Escaping applied by `JSON.stringify` inside string literals
(quote, backslash and the common control characters). -/
def jsonEscape (s : String) : String :=
  ⟨s.data.flatMap fun c =>
    if c = '"' then ['\\', '"']
    else if c = '\\' then ['\\', '\\']
    else if c = '\n' then ['\\', 'n']
    else if c = '\t' then ['\\', 't']
    else if c = '\r' then ['\\', 'r']
    else [c]⟩

mutual
/-- JavaScript `JSON.stringify` on the values of `JSValue`.  A nested
`undefined` serializes as `null` inside arrays and is dropped from
objects, as in JavaScript; a top-level `undefined` yields no string at
all in JavaScript and is never passed to this function by the embedded
code (`state || {}` shields it). -/
def stringifyJson : JSValue → String
  | .undefined => "null"
  | .null => "null"
  | .bool true => "true"
  | .bool false => "false"
  | .num n => intRepr n
  | .str s => "\"" ++ jsonEscape s ++ "\""
  | .arr l => "[" ++ sepJoin "," (stringifyArr l) ++ "]"
  | .obj m => "\x7b" ++ sepJoin "," (stringifyMembers m) ++ "\x7d"

/-- Serialized array elements. -/
def stringifyArr : List JSValue → List String
  | [] => []
  | v :: vs => stringifyJson v :: stringifyArr vs

/-- Serialized object members; members whose value is `undefined` are
dropped, as `JSON.stringify` does. -/
def stringifyMembers : List (String × JSValue) → List String
  | [] => []
  | (_, .undefined) :: rest => stringifyMembers rest
  | (k, v) :: rest =>
      ("\"" ++ jsonEscape k ++ "\":" ++ stringifyJson v) :: stringifyMembers rest
end

/-- Column metadata.  Modelled from the spec: `FieldInfo` lives in
`src/common/database.ts`, outside the visible sources; the spec gives it a
display `name`, a human-readable `display_type` and a formatting-class
`format` tag. -/
structure FieldInfo where
  name : String
  display_type : String
  format : String
deriving Repr

/-- One statement result.  Modelled from the spec: `QueryResults` lives in
`src/common/database.ts`, outside the visible sources; the spec gives it a
`command` tag, a non-negative `rowCount`, optional `fields` and positional
`rows` collections, and a `message` used by the informational tag. -/
structure QueryResults where
  command : String
  rowCount : Nat
  fields : Option (List FieldInfo)
  rows : Option (List (List JSValue))
  message : String
deriving Repr

/-- The external field formatter `formatFieldValue(field, value, pretty)`;
it may return a string or a nullish value (`none`). -/
def Fmt : Type := FieldInfo → JSValue → Bool → Option String

/-- The text placed in a table cell: `formatted ? formatted : ''`. -/
def cellText (fmt : Fmt) (f : FieldInfo) (v : JSValue) : String :=
  (fmt f v false).getD ""

/-- The JavaScript guard `xs && xs.length` on an optional collection. -/
def jsLenTruthy {α : Type} : Option (List α) → Bool
  | none => false
  | some l => l.length != 0

/-- `getRowCountResult(rowCount, text, preClass)` — the row-count summary
line (`common.ts` lines 224-231), including the singular/plural choice
`rowCount === 1 ? 'row' : 'rows'`. -/
def getRowCountResult (rowCount : Nat) (text : String) (preClass : String) : String :=
  "<pre class=\"vscode-postgres-result vscode-postgres-result-" ++ preClass ++
    "\">" ++ natRepr rowCount ++ " " ++
    (if rowCount = 1 then "row" else "rows") ++ " " ++ text ++ "</pre>"

/-- The header cells of the column-header loop in
`generateSelectTableResult` (`common.ts` lines 255-257): one `<th>` per
field, holding the field name and its display type. -/
def headerCells : List FieldInfo → String
  | [] => ""
  | f :: fs =>
      "<th><div class=\"field-name\">" ++ f.name ++
        "</div><div class=\"field-type\">" ++ f.display_type ++ "</div></th>" ++
        headerCells fs

/-- The data cells of one body row: the `result.fields.forEach((field, idx))`
loop (`common.ts` lines 266-269).  `row[idx]` past the end of the row is
JavaScript `undefined`. -/
def rowCells (fmt : Fmt) (row : List JSValue) : List FieldInfo → Nat → String
  | [], _ => ""
  | f :: fs, idx =>
      "<td class=\"" ++ f.format ++ "-field\">" ++
        cellText fmt f (row.getD idx .undefined) ++ "</td>" ++
        rowCells fmt row fs (idx + 1)

/-- The body-row loop of `generateSelectTableResult` (`common.ts` lines
261-271): one `<tr>` per row, led by the running `rowIndex` counter. -/
def tableBody (fmt : Fmt) (fl : List FieldInfo) :
    List (List JSValue) → Nat → String
  | [], _ => ""
  | row :: rest, i =>
      "<tr><th class=\"row-header\">" ++ natRepr i ++ "</th>" ++
        rowCells fmt row fl 0 ++ "</tr>" ++ tableBody fmt fl rest (i + 1)

/-- `generateSelectTableResult` (`common.ts` lines 251-277): the full table
fragment — header row with a leading empty `<th>`, then the body, guarded
by `result.rows && result.rows.length`. -/
def generateSelectTableResult (fmt : Fmt) (result : QueryResults) : String :=
  "<table>" ++ "<thead><tr><th></th>" ++ headerCells (result.fields.getD []) ++
    "</tr></thead>" ++ "<tbody>" ++
    (if jsLenTruthy result.rows then
      tableBody fmt (result.fields.getD []) (result.rows.getD []) 1
    else "") ++
    "</tbody>" ++ "</table>"

/-- `generateInsertResults` (`common.ts` lines 184-194). -/
def generateInsertResults (fmt : Fmt) (result : QueryResults) : String :=
  getRowCountResult result.rowCount "inserted" "insert" ++
    (if jsLenTruthy result.fields && jsLenTruthy result.rows then
      generateSelectTableResult fmt result
    else "")

/-- `generateUpdateResults` (`common.ts` lines 196-206). -/
def generateUpdateResults (fmt : Fmt) (result : QueryResults) : String :=
  getRowCountResult result.rowCount "updated" "update" ++
    (if jsLenTruthy result.fields && jsLenTruthy result.rows then
      generateSelectTableResult fmt result
    else "")

/-- `generateCreateResults` (`common.ts` lines 208-210). -/
def generateCreateResults (result : QueryResults) : String :=
  getRowCountResult result.rowCount "created" "create"

/-- `generateDeleteResults` (`common.ts` lines 212-222). -/
def generateDeleteResults (fmt : Fmt) (result : QueryResults) : String :=
  getRowCountResult result.rowCount "deleted" "delete" ++
    (if jsLenTruthy result.fields && jsLenTruthy result.rows then
      generateSelectTableResult fmt result
    else "")

/-- `generateExplainResult` (`common.ts` lines 233-235):
`result.rows.join('\n')` inside one preformatted block.  Each row is itself
an array, which `Array.prototype.join` converts with `jsToString`. -/
def generateExplainResult (result : QueryResults) : String :=
  "<pre class=\"vscode-postgres-result vscode-postgres-result-explain\">" ++
    sepJoin "\n" (jsJoinItems ((result.rows.getD []).map .arr)) ++
    "</pre>"

/-- A field descriptor as the JavaScript object it is at runtime. -/
def fieldValue (f : FieldInfo) : JSValue :=
  .obj [("name", .str f.name), ("display_type", .str f.display_type),
        ("format", .str f.format)]

/-- A statement result as the JavaScript object it is at runtime.
Modelled from the spec: the exact member set of the result object lives in
the database layer outside the visible sources; the spec (§3) gives the
structure used here. -/
def resultValue (r : QueryResults) : JSValue :=
  .obj
    [("command", .str r.command),
     ("rowCount", .num r.rowCount),
     ("fields", match r.fields with
       | none => .undefined
       | some fl => .arr (fl.map fieldValue)),
     ("rows", match r.rows with
       | none => .undefined
       | some rws => .arr (rws.map .arr)),
     ("message", .str r.message)]

/-- The structural dump `JSON.stringify(result)` used by the generic
fallback. -/
def stringifyResult (r : QueryResults) : String :=
  stringifyJson (resultValue r)

/-- `generateGenericResult` (`common.ts` lines 237-239). -/
def generateGenericResult (result : QueryResults) : String :=
  "<pre class=\"vscode-postgres-result vscode-postgres-result-generic\">" ++
    stringifyResult result ++ "</pre>"

/-- `generateMessage` (`common.ts` lines 241-243). -/
def generateMessage (result : QueryResults) : String :=
  "<pre class=\"vscode-postgres-result vscode-postgres-result-message\">" ++
    result.message ++ "</pre>"

/-- `generateSelectResult` (`common.ts` lines 245-249). -/
def generateSelectResult (fmt : Fmt) (result : QueryResults) : String :=
  getRowCountResult result.rowCount "returned" "select" ++
    generateSelectTableResult fmt result

/-- The body of the `switch (result.command)` dispatch in
`getResultsTables` (`common.ts` lines 153-178). -/
def renderStatement (fmt : Fmt) (result : QueryResults) : String :=
  if result.command = "ext-message" then generateMessage result
  else if result.command = "INSERT" then generateInsertResults fmt result
  else if result.command = "UPDATE" then generateUpdateResults fmt result
  else if result.command = "CREATE" then generateCreateResults result
  else if result.command = "DELETE" then generateDeleteResults fmt result
  else if result.command = "EXPLAIN" then generateExplainResult result
  else if result.command = "SELECT" then generateSelectResult fmt result
  else generateGenericResult result

/-- The divider placed between consecutive statement fragments
(`common.ts` line 152). -/
def divider : String := "<hr class=\"result-divider\" />"

/-- The accumulation loop of `getResultsTables` (`common.ts` lines
148-182): a divider before every fragment except the first. -/
def getResultsTablesAux (fmt : Fmt) : List QueryResults → Bool → String
  | [], _ => ""
  | r :: rs, first =>
      (if first then "" else divider) ++ renderStatement fmt r ++
        getResultsTablesAux fmt rs false

/-- `getResultsTables(results)` (`common.ts` lines 148-182). -/
def getResultsTables (fmt : Fmt) (results : List QueryResults) : String :=
  getResultsTablesAux fmt results true

/-- The quote escaping applied to the serialized state:
`.replace(/"/g, '&quot;')` (`common.ts` line 31). -/
def escapeQuotesL : List Char → List Char
  | [] => []
  | c :: s =>
      if c = '"' then '&' :: 'q' :: 'u' :: 'o' :: 't' :: ';' :: escapeQuotesL s
      else c :: escapeQuotesL s

/-- String form of `escapeQuotesL`. -/
def escapeQuotes (s : String) : String := ⟨escapeQuotesL s.data⟩

/-- Reversal of the quote escaping, as the round-trip claim describes it:
each `&quot;` is replaced back by a double quote, scanning left to right
without overlap (the semantics of a global regex replace). -/
def unescapeQuotesL : List Char → List Char
  | [] => []
  | '&' :: 'q' :: 'u' :: 'o' :: 't' :: ';' :: rest => '"' :: unescapeQuotesL rest
  | c :: s => c :: unescapeQuotesL s

/-- String form of `unescapeQuotesL`. -/
def unescapeQuotes (s : String) : String := ⟨unescapeQuotesL s.data⟩

/-- JavaScript `a || b`. -/
def jsOr (a b : JSValue) : JSValue := if jsTruthy a then a else b

/-- The value of the `data-state` attribute:
`JSON.stringify(state || {}).replace(/"/g, '&quot;')`
(`common.ts` line 31). -/
def stateText (state : JSValue) : String :=
  escapeQuotes (stringifyJson (jsOr state (.obj [])))

/-- The conditional rule set of `getStyles` (`common.ts` lines 44-51),
included when the `prettyPrintJSONfields` configuration option is set. -/
def prettyJsonFieldStyle (pretty : Bool) : String :=
  if pretty then
    "\n    .jsonb-field, .json-field \x7b\n      white-space: pre;\n    \x7d\n    "
  else ""

/-- `getStyles(nonce)` (`common.ts` lines 42-136); the configuration read
is the boolean parameter `pretty`. -/
def getStyles (nonce : String) (pretty : Bool) : String :=
  "<style nonce=\"" ++ nonce ++ "\">\n    body \x7b\n      margin: 0;\n      padding: 0;\n    \x7d\n\n" ++
    "    pre.vscode-postgres-result \x7b\n      margin: 5px;\n    \x7d\n    \n" ++
    "    pre.vscode-postgres-result-insert \x7b\n    \n    \x7d\n    \n" ++
    "    pre.vscode-postgres-result-update \x7b\n      \n    \x7d\n    \n" ++
    "    pre.vscode-postgres-result-create \x7b\n      \n    \x7d\n    \n" ++
    "    pre.vscode-postgres-result-delete \x7b\n      \n    \x7d\n    \n" ++
    "    pre.vscode-postgres-result-explain \x7b\n      \n    \x7d\n    \n" ++
    "    pre.vscode-postgres-result-generic \x7b\n      \n    \x7d\n    \n" ++
    "    pre.vscode-postgres-result-message \x7b\n      \n    \x7d\n\n" ++
    "    pre.vscode-postgres-result-select \x7b\n      \n    \x7d\n\n" ++
    "    .field-type \x7b\n      font-size: smaller;\n    \x7d\n\n    " ++
    prettyJsonFieldStyle pretty ++
    "\n    \n    table \x7b\n      border-collapse: collapse;\n    \x7d\n\n" ++
    "    thead th \x7b\n      position: sticky;\n      top: -1px;\n      background-color: var(--vscode-editor-background, var(--theme-background));\n    \x7d\n\n" ++
    "    thead th::after \x7b\n      content: '';\n      position: absolute;\n      top: -1px;\n      right: -1px;\n      left: -1px;\n      height: 100%;\n      border: 1px solid var(--vscode-panel-border);\n      pointer-events: none;\n    \x7d\n    \n" ++
    "    th, td \x7b\n      border-width: 1px;\n      border-style: solid;\n      border-color: var(--vscode-panel-border);\n      padding: 3px 5px;\n    \x7d\n    \n" ++
    "    .timestamptz-field \x7b white-space: nowrap; \x7d\n\n" ++
    "    .result-divider \x7b\n      padding: 0;\n      border: none;\n      border-top: medium double var(--vscode-panel-border);\n    \x7d\n  </style>"

/-- A character list free of the tag-opening character `<`. -/
def tagFreeL (l : List Char) : Prop := ∀ c ∈ l, c ≠ '<'

/-- A string free of the tag-opening character `<`; interpolated data that
satisfies this cannot create or destroy any markup token, so structural
counting over the rendered fragment is meaningful. -/
def tagFree (s : String) : Prop := tagFreeL s.data

/-- Number of (possibly overlapping) occurrences of the pattern `p` in a
character list: one per position at which `p` is a prefix of the remaining
suffix. -/
def cnt (p : List Char) : List Char → Nat
  | [] => 0
  | c :: s => (if p.isPrefixOf (c :: s) then 1 else 0) + cnt p s

/-- Occurrence count of a pattern string in a subject string. -/
def cntS (p s : String) : Nat := cnt p.data s.data

/-- No nonempty proper prefix of the pattern `p` is a suffix of `a`; when
this holds no occurrence of `p` can start inside `a` and continue past its
end, so occurrence counting distributes over `a ++ b`. -/
def SpanFree (p a : List Char) : Prop :=
  ∀ k, 0 < k → k < p.length → ¬ (p.take k <:+ a)

/-- Executable check for `SpanFree`, usable on concrete literals. -/
def spanFreeB (p a : List Char) : Bool :=
  (List.range p.length).all fun k => k == 0 || !((p.take k).isSuffixOf a)

/-- The pattern `p` occurs exactly `n` times in the string `s`, and no
occurrence of `p` can straddle the right end of `s`. -/
def Piece (p : List Char) (s : String) (n : Nat) : Prop :=
  cnt p s.data = n ∧ SpanFree p s.data

/-- Executable check for `Piece`, usable on concrete literals. -/
def pieceB (p : List Char) (s : String) (n : Nat) : Bool :=
  (cnt p s.data == n) && spanFreeB p s.data

/-- All field metadata of a field list is `<`-free. -/
def FieldsTagFree (fl : List FieldInfo) : Prop :=
  ∀ f ∈ fl, tagFree f.name ∧ tagFree f.display_type ∧ tagFree f.format

/-- Every string the external formatter can contribute to a cell is
`<`-free. -/
def FmtTagFree (fmt : Fmt) : Prop := ∀ f v, tagFree (cellText fmt f v)

instance instDecTagFreeL (l : List Char) : Decidable (tagFreeL l) :=
  List.decidableBAll _ l

instance instDecTagFree (s : String) : Decidable (tagFree s) :=
  instDecTagFreeL s.data

instance instDecFieldsTagFree (fl : List FieldInfo) : Decidable (FieldsTagFree fl) :=
  List.decidableBAll _ fl

mutual
/-- A JavaScript value all of whose reachable strings are `<`-free. -/
def valueTagFreeB : JSValue → Bool
  | .undefined => true
  | .null => true
  | .bool _ => true
  | .num _ => true
  | .str s => s.data.all fun c => c != '<'
  | .arr l => valuesTagFreeB l
  | .obj m => membersTagFreeB m

/-- `valueTagFreeB` over a list of values. -/
def valuesTagFreeB : List JSValue → Bool
  | [] => true
  | v :: vs => valueTagFreeB v && valuesTagFreeB vs

/-- `valueTagFreeB` over object members (keys included). -/
def membersTagFreeB : List (String × JSValue) → Bool
  | [] => true
  | (k, v) :: rest =>
      (k.data.all fun c => c != '<') && valueTagFreeB v && membersTagFreeB rest
end

/-- All strings reachable from a statement result (command, message, field
metadata and row payloads) are `<`-free. -/
def ResultTagFree (r : QueryResults) : Prop :=
  tagFree r.command ∧ tagFree r.message ∧
    (∀ fl, r.fields = some fl → FieldsTagFree fl) ∧
    (∀ rws, r.rows = some rws → ∀ row ∈ rws, ∀ v ∈ row, valueTagFreeB v = true)

/-- `generateResultsHtml` (`common.ts` lines 15-40).  The host-window
collaborators are parameters: `pageScript` is the resolved asset URI and
`nonce` the timestamp-derived token. -/
def generateResultsHtml (pageScript nonce : String) (pretty : Bool)
    (fmt : Fmt) (results : List QueryResults) (state : JSValue) : String :=
  "<!DOCTYPE html>\n  <html lang=\"en\">\n    <head>\n      <meta charset=\"UTF-8\">\n" ++
    "      <meta name=\"viewport\" content=\"width=device-width, initial-scale=1.0\">\n" ++
    "      <meta id=\"vscode-postgres-results-data\"\n        data-settings=\"\"\n        data-state=\"" ++
    stateText state ++ "\" />\n      <script src=\"" ++ pageScript ++
    "\" nonce=\"" ++ nonce ++ "\"></script>\n      " ++ getStyles nonce pretty ++
    "\n    </head>\n    <body class=\"vscode-body\">\n      " ++
    getResultsTables fmt results ++ "\n    </body>\n  </html>"

/-! ## Concrete sample data used by the witness theorems -/

/-- Two sample columns. -/
def sampleFields : List FieldInfo :=
  [⟨"id", "int4", "text"⟩, ⟨"name", "text", "text"⟩]

/-- Two sample rows aligned with `sampleFields`. -/
def sampleRows : List (List JSValue) :=
  [[.num 1, .str "a"], [.num 2, .str "b"]]

/-- A formatter that renders every cell as the text `x`. -/
def sampleFmt : Fmt := fun _ _ _ => some "x"

/-- A sample SELECT result with two rows. -/
def sampleSelect : QueryResults :=
  ⟨"SELECT", 2, some sampleFields, some sampleRows, ""⟩

/-- A sample SELECT result with no rows. -/
def sampleEmptySelect : QueryResults :=
  ⟨"SELECT", 0, some sampleFields, some [], ""⟩

/-- A sample INSERT … RETURNING result with two rows. -/
def sampleInsert : QueryResults :=
  ⟨"INSERT", 2, some sampleFields, some sampleRows, ""⟩

/-- A sample plain INSERT result without row-shaped output. -/
def samplePlainInsert : QueryResults :=
  ⟨"INSERT", 1, none, none, ""⟩

/-- A sample CREATE result. -/
def sampleCreate : QueryResults :=
  ⟨"CREATE", 0, none, none, ""⟩

/-- A sample EXPLAIN result with two plan lines. -/
def sampleExplain : QueryResults :=
  ⟨"EXPLAIN", 2, none, some [[.str "Seq Scan on t"], [.str "  Filter: x"]], ""⟩

/-- A sample result with an unrecognized command tag. -/
def sampleVacuum : QueryResults :=
  ⟨"VACUUM", 0, none, none, ""⟩

/-- A sample informational message result. -/
def sampleMessage : QueryResults :=
  ⟨"ext-message", 0, none, none, "a notice"⟩

/-! ## Counting theory

Occurrence counting distributes over concatenation as long as no
occurrence of the pattern straddles the junction (`SpanFree`); literal
pieces are handled by `decide` and interpolated data by `<`-freeness. -/

theorem spanFree_of_B {p a : List Char} (h : spanFreeB p a = true) :
    SpanFree p a := by
  intro k hk0 hkp hsuf
  have hk := List.all_eq_true.mp h k (List.mem_range.mpr hkp)
  simp only [Bool.or_eq_true, beq_iff_eq, Bool.not_eq_true'] at hk
  rcases hk with hk | hk
  · omega
  · have hbad : (p.take k).isSuffixOf a = true :=
      List.isSuffixOf_iff_suffix.mpr hsuf
    rw [hbad] at hk
    cases hk

theorem spanFree_cons_of {p : List Char} {c : Char} {a : List Char}
    (h : SpanFree p (c :: a)) : SpanFree p a := by
  intro k h0 h1 hs
  exact h k h0 h1 (hs.trans (List.suffix_cons c a))

theorem spanFree_append {p a b : List Char}
    (ha : SpanFree p a) (hb : SpanFree p b) : SpanFree p (a ++ b) := by
  intro k hk0 hkp hsuf
  have hlen : (p.take k).length = k := by
    rw [List.length_take]; omega
  by_cases hle : k ≤ b.length
  · refine hb k hk0 hkp ?_
    rw [List.suffix_iff_eq_drop] at hsuf ⊢
    rw [hlen] at hsuf ⊢
    rw [List.length_append] at hsuf
    have harith : a.length + b.length - k = a.length + (b.length - k) := by omega
    rw [harith, List.drop_append] at hsuf
    exact hsuf
  · push_neg at hle
    refine ha (k - b.length) (by omega) (by omega) ?_
    rw [← List.reverse_prefix] at hsuf ⊢
    rw [List.reverse_append] at hsuf
    obtain ⟨t, ht⟩ := hsuf
    have h2 := congrArg (List.drop b.length) ht
    rw [show b.length = b.reverse.length from (List.length_reverse b).symm,
      List.drop_left] at h2
    rw [List.length_reverse,
      List.drop_append_of_le_length (by rw [List.length_reverse, hlen]; omega)]
      at h2
    have h3 : List.drop b.length ((p.take k).reverse) =
        (p.take (k - b.length)).reverse := by
      rw [List.drop_reverse, hlen, List.take_take,
        show (k - b.length) ⊓ k = k - b.length by omega]
    rw [h3] at h2
    exact ⟨t, h2⟩

theorem cnt_append {p : List Char} (a b : List Char) (ha : SpanFree p a) :
    cnt p (a ++ b) = cnt p a + cnt p b := by
  induction a with
  | nil => simp [cnt]
  | cons c a ih =>
    have hiff : (p <+: (c :: a) ++ b) ↔ (p <+: c :: a) := by
      constructor
      · intro hpre
        by_cases hle : p.length ≤ (c :: a).length
        · rw [List.prefix_iff_eq_take] at hpre
          rw [List.take_append_of_le_length hle] at hpre
          rw [List.prefix_iff_eq_take]
          exact hpre
        · exfalso
          push_neg at hle
          obtain ⟨t, ht⟩ := hpre
          have h1 := congrArg (List.take (c :: a).length) ht
          rw [List.take_left] at h1
          rw [List.take_append_of_le_length (by omega)] at h1
          refine ha (c :: a).length (by simp) (by omega) ?_
          rw [h1]
      · intro hpre
        exact hpre.trans (List.prefix_append (c :: a) b)
    have hbool : p.isPrefixOf (c :: (a ++ b)) = p.isPrefixOf (c :: a) := by
      rw [Bool.eq_iff_iff, List.isPrefixOf_iff_prefix, List.isPrefixOf_iff_prefix]
      exact hiff
    calc cnt p ((c :: a) ++ b)
        = (if p.isPrefixOf (c :: (a ++ b)) then 1 else 0) + cnt p (a ++ b) := rfl
      _ = (if p.isPrefixOf (c :: a) then 1 else 0) + (cnt p a + cnt p b) := by
          rw [hbool, ih (spanFree_cons_of ha)]
      _ = cnt p (c :: a) + cnt p b := (Nat.add_assoc _ _ _).symm

theorem spanFree_of_head {p a : List Char} (hp : p.head? = some '<')
    (ha : tagFreeL a) : SpanFree p a := by
  intro k hk0 hkp hsuf
  cases p with
  | nil => simp at hp
  | cons q p' =>
    have hq : q = '<' := by simpa using hp
    subst hq
    have hmem : '<' ∈ List.take k ('<' :: p') := by
      cases k with
      | zero => omega
      | succ k' => rw [List.take_succ_cons]; exact List.mem_cons_self _ _
    exact ha '<' (hsuf.subset hmem) rfl

theorem cnt_eq_zero_of_head {p a : List Char} (hp : p.head? = some '<')
    (ha : tagFreeL a) : cnt p a = 0 := by
  induction a with
  | nil => rfl
  | cons c s ih =>
    have hc : c ≠ '<' := ha c (List.mem_cons_self c s)
    have hpre : p.isPrefixOf (c :: s) = false := by
      rw [← Bool.not_eq_true, List.isPrefixOf_iff_prefix]
      intro hpre
      cases p with
      | nil => simp at hp
      | cons q p' =>
        have hq : q = '<' := by simpa using hp
        subst hq
        rw [List.cons_prefix_cons] at hpre
        exact hc hpre.1.symm
    have hs : tagFreeL s := fun x hx => ha x (List.mem_cons_of_mem c hx)
    simp [cnt, hpre, ih hs]

theorem Piece.append {p : List Char} {a b : String} {m n : Nat}
    (ha : Piece p a m) (hb : Piece p b n) : Piece p (a ++ b) (m + n) := by
  constructor
  · rw [String.data_append, cnt_append _ _ ha.2, ha.1, hb.1]
  · rw [String.data_append]; exact spanFree_append ha.2 hb.2

theorem Piece.of_B {p : List Char} {s : String} {n : Nat}
    (h : pieceB p s n = true) : Piece p s n := by
  have h' := h
  unfold pieceB at h'
  rw [Bool.and_eq_true, beq_iff_eq] at h'
  exact ⟨h'.1, spanFree_of_B h'.2⟩

theorem Piece.of_tagFree {p : List Char} {s : String}
    (hp : p.head? = some '<') (h : tagFree s) : Piece p s 0 :=
  ⟨cnt_eq_zero_of_head hp h, spanFree_of_head hp h⟩

theorem Piece.cast {p : List Char} {s : String} {m n : Nat}
    (h : Piece p s m) (e : m = n) : Piece p s n := e ▸ h

/-! ## `<`-freeness of the numeric and serialized data pieces -/

theorem digitChar_ne_lt (d : Nat) : Nat.digitChar d ≠ '<' := by
  match d with
  | 0 | 1 | 2 | 3 | 4 | 5 | 6 | 7 | 8 | 9 | 10 | 11 | 12 | 13 | 14 | 15 => decide
  | n + 16 =>
    unfold Nat.digitChar
    repeat rw [if_neg (show ¬_ by omega)]
    decide

theorem natToDigits_tagFree (n : Nat) : tagFreeL (natToDigits n) := by
  induction n using Nat.strong_induction_on with
  | _ n ih =>
    rw [natToDigits]
    split
    · intro c hc
      rw [List.mem_singleton] at hc
      subst hc
      exact digitChar_ne_lt n
    · intro c hc
      rw [List.mem_append] at hc
      rcases hc with hc | hc
      · exact ih (n / 10) (Nat.div_lt_self (by omega) (by omega)) c hc
      · rw [List.mem_singleton] at hc
        subst hc
        exact digitChar_ne_lt (n % 10)

theorem tagFree_natRepr (n : Nat) : tagFree (natRepr n) :=
  natToDigits_tagFree n

theorem tagFree_intRepr (n : Int) : tagFree (intRepr n) := by
  unfold intRepr
  split
  · intro c hc
    rw [String.data_append, List.mem_append] at hc
    rcases hc with hc | hc
    · rw [show ("-" : String).data = ['-'] from rfl, List.mem_singleton] at hc
      subst hc; decide
    · exact tagFree_natRepr _ c hc
  · exact tagFree_natRepr _

theorem tagFree_append {a b : String} (ha : tagFree a) (hb : tagFree b) :
    tagFree (a ++ b) := by
  intro c hc
  rw [String.data_append, List.mem_append] at hc
  rcases hc with h | h
  · exact ha c h
  · exact hb c h

theorem tagFree_sepJoin {sep : String} (hsep : tagFree sep) :
    ∀ l : List String, (∀ s ∈ l, tagFree s) → tagFree (sepJoin sep l)
  | [], _ => by intro c hc; cases hc
  | [x], h => by
      rw [show sepJoin sep [x] = x from rfl]
      exact h x (List.mem_singleton.mpr rfl)
  | x :: y :: rest, h => by
      rw [show sepJoin sep (x :: y :: rest) = x ++ sep ++ sepJoin sep (y :: rest)
        from rfl]
      exact tagFree_append
        (tagFree_append (h x (List.mem_cons_self _ _)) hsep)
        (tagFree_sepJoin hsep (y :: rest) fun s hs =>
          h s (List.mem_cons_of_mem x hs))

theorem tagFree_of_all {s : String} (h : (s.data.all fun c => c != '<') = true) :
    tagFree s := by
  intro c hc
  have := List.all_eq_true.mp h c hc
  simpa using this

theorem all_of_tagFree {s : String} (h : tagFree s) :
    (s.data.all fun c => c != '<') = true := by
  rw [List.all_eq_true]
  intro c hc
  simpa using h c hc

theorem tagFree_jsonEscape {s : String} (h : tagFree s) :
    tagFree (jsonEscape s) := by
  intro c hc
  unfold jsonEscape at hc
  rw [show (String.mk (s.data.flatMap _)).data = s.data.flatMap _ from rfl] at hc
  rw [List.mem_flatMap] at hc
  obtain ⟨a, ha, hca⟩ := hc
  have hne := h a ha
  by_cases h1 : a = '"'
  · rw [if_pos h1] at hca
    rw [List.mem_cons, List.mem_singleton] at hca
    rcases hca with rfl | rfl <;> decide
  rw [if_neg h1] at hca
  by_cases h2 : a = '\\'
  · rw [if_pos h2] at hca
    rw [List.mem_cons, List.mem_singleton] at hca
    rcases hca with rfl | rfl <;> decide
  rw [if_neg h2] at hca
  by_cases h3 : a = '\n'
  · rw [if_pos h3] at hca
    rw [List.mem_cons, List.mem_singleton] at hca
    rcases hca with rfl | rfl <;> decide
  rw [if_neg h3] at hca
  by_cases h4 : a = '\t'
  · rw [if_pos h4] at hca
    rw [List.mem_cons, List.mem_singleton] at hca
    rcases hca with rfl | rfl <;> decide
  rw [if_neg h4] at hca
  by_cases h5 : a = '\r'
  · rw [if_pos h5] at hca
    rw [List.mem_cons, List.mem_singleton] at hca
    rcases hca with rfl | rfl <;> decide
  rw [if_neg h5] at hca
  rw [List.mem_singleton] at hca
  subst hca
  exact hne

mutual
theorem jsToString_tagFree : ∀ v : JSValue, valueTagFreeB v = true →
    tagFree (jsToString v)
  | .undefined, _ => by decide
  | .null, _ => by decide
  | .bool true, _ => by decide
  | .bool false, _ => by decide
  | .num n, _ => tagFree_intRepr n
  | .str s, h => tagFree_of_all (by simpa [valueTagFreeB] using h)
  | .arr l, h =>
      tagFree_sepJoin (by decide) _
        (jsJoinItems_tagFree l (by simpa [valueTagFreeB] using h))
  | .obj m, _ => by
      rw [show jsToString (.obj m) = "[object Object]" from rfl]; decide

theorem jsJoinItems_tagFree : ∀ l : List JSValue, valuesTagFreeB l = true →
    ∀ s ∈ jsJoinItems l, tagFree s
  | [], _ => by intro s hs; cases hs
  | v :: vs, h => by
      have h' : valueTagFreeB v = true ∧ valuesTagFreeB vs = true := by
        simpa [valuesTagFreeB, Bool.and_eq_true] using h
      intro s hs
      have key : ∀ hd : String, tagFree hd → s ∈ hd :: jsJoinItems vs →
          tagFree s := by
        intro hd hhd hmem
        rw [List.mem_cons] at hmem
        rcases hmem with rfl | hmem
        · exact hhd
        · exact jsJoinItems_tagFree vs h'.2 s hmem
      cases v with
      | undefined => exact key "" (by decide) hs
      | null => exact key "" (by decide) hs
      | bool b => exact key _ (jsToString_tagFree _ h'.1) hs
      | num n => exact key _ (jsToString_tagFree _ h'.1) hs
      | str t => exact key _ (jsToString_tagFree _ h'.1) hs
      | arr l => exact key _ (jsToString_tagFree _ h'.1) hs
      | obj m => exact key _ (jsToString_tagFree _ h'.1) hs
end

mutual
theorem stringifyJson_tagFree : ∀ v : JSValue, valueTagFreeB v = true →
    tagFree (stringifyJson v)
  | .undefined, _ => by decide
  | .null, _ => by decide
  | .bool true, _ => by decide
  | .bool false, _ => by decide
  | .num n, _ => tagFree_intRepr n
  | .str s, h =>
      tagFree_append
        (tagFree_append (by decide)
          (tagFree_jsonEscape (tagFree_of_all (by simpa [valueTagFreeB] using h))))
        (by decide)
  | .arr l, h =>
      tagFree_append
        (tagFree_append (by decide)
          (tagFree_sepJoin (by decide) _
            (stringifyArr_tagFree l (by simpa [valueTagFreeB] using h))))
        (by decide)
  | .obj m, h =>
      tagFree_append
        (tagFree_append (by decide)
          (tagFree_sepJoin (by decide) _
            (stringifyMembers_tagFree m (by simpa [valueTagFreeB] using h))))
        (by decide)

theorem stringifyArr_tagFree : ∀ l : List JSValue, valuesTagFreeB l = true →
    ∀ s ∈ stringifyArr l, tagFree s
  | [], _ => by intro s hs; cases hs
  | v :: vs, h => by
      have h' : valueTagFreeB v = true ∧ valuesTagFreeB vs = true := by
        simpa [valuesTagFreeB, Bool.and_eq_true] using h
      intro s hs
      rw [show stringifyArr (v :: vs) = stringifyJson v :: stringifyArr vs
        from rfl, List.mem_cons] at hs
      rcases hs with rfl | hs
      · exact stringifyJson_tagFree v h'.1
      · exact stringifyArr_tagFree vs h'.2 s hs

theorem stringifyMembers_tagFree :
    ∀ m : List (String × JSValue), membersTagFreeB m = true →
    ∀ s ∈ stringifyMembers m, tagFree s
  | [], _ => by intro s hs; cases hs
  | (k, v) :: rest, h => by
      have h' : (k.data.all fun c => c != '<') = true ∧
          valueTagFreeB v = true ∧ membersTagFreeB rest = true := by
        simpa [membersTagFreeB, Bool.and_eq_true, and_assoc] using h
      intro s hs
      have key : s ∈ ("\"" ++ jsonEscape k ++ "\":" ++ stringifyJson v) ::
          stringifyMembers rest → tagFree s := by
        intro hmem
        rw [List.mem_cons] at hmem
        rcases hmem with rfl | hmem
        · exact tagFree_append
            (tagFree_append
              (tagFree_append (by decide) (tagFree_jsonEscape (tagFree_of_all h'.1)))
              (by decide))
            (stringifyJson_tagFree v h'.2.1)
        · exact stringifyMembers_tagFree rest h'.2.2 s hmem
      cases v with
      | undefined => exact stringifyMembers_tagFree rest h'.2.2 s hs
      | null => exact key hs
      | bool b => exact key hs
      | num n => exact key hs
      | str t => exact key hs
      | arr l => exact key hs
      | obj m => exact key hs
end

theorem valuesTagFreeB_of_forall :
    ∀ l : List JSValue, (∀ v ∈ l, valueTagFreeB v = true) →
    valuesTagFreeB l = true
  | [], _ => rfl
  | v :: vs, h => by
      rw [show valuesTagFreeB (v :: vs) = (valueTagFreeB v && valuesTagFreeB vs)
        from rfl, Bool.and_eq_true]
      exact ⟨h v (List.mem_cons_self _ _),
        valuesTagFreeB_of_forall vs fun x hx => h x (List.mem_cons_of_mem v hx)⟩

theorem fieldValue_tagFreeB {f : FieldInfo}
    (h : tagFree f.name ∧ tagFree f.display_type ∧ tagFree f.format) :
    valueTagFreeB (fieldValue f) = true := by
  unfold fieldValue
  simp only [valueTagFreeB, membersTagFreeB, Bool.and_eq_true]
  repeat' apply And.intro
  all_goals first
    | rfl
    | decide
    | exact all_of_tagFree h.1
    | exact all_of_tagFree h.2.1
    | exact all_of_tagFree h.2.2

theorem fieldsValue_tagFreeB :
    ∀ {fl : List FieldInfo}, FieldsTagFree fl →
    valuesTagFreeB (fl.map fieldValue) = true := by
  intro fl h
  induction fl with
  | nil => rfl
  | cons f fs ih =>
    rw [List.map_cons,
      show valuesTagFreeB (fieldValue f :: fs.map fieldValue) =
        (valueTagFreeB (fieldValue f) && valuesTagFreeB (fs.map fieldValue))
        from rfl,
      Bool.and_eq_true]
    exact ⟨fieldValue_tagFreeB (h f (List.mem_cons_self _ _)),
      ih fun x hx => h x (List.mem_cons_of_mem f hx)⟩

theorem rowsValue_tagFreeB {rws : List (List JSValue)}
    (h : ∀ row ∈ rws, ∀ v ∈ row, valueTagFreeB v = true) :
    valuesTagFreeB (rws.map .arr) = true := by
  apply valuesTagFreeB_of_forall
  intro v hv
  rw [List.mem_map] at hv
  obtain ⟨row, hrow, rfl⟩ := hv
  rw [show valueTagFreeB (.arr row) = valuesTagFreeB row from rfl]
  exact valuesTagFreeB_of_forall row (h row hrow)

theorem resultValue_tagFreeB {r : QueryResults} (h : ResultTagFree r) :
    valueTagFreeB (resultValue r) = true := by
  obtain ⟨hcmd, hmsg, hfields, hrows⟩ := h
  have hfv : valueTagFreeB (match r.fields with
      | none => JSValue.undefined
      | some fl => JSValue.arr (fl.map fieldValue)) = true := by
    cases hf : r.fields with
    | none => rfl
    | some fl => exact fieldsValue_tagFreeB (hfields fl hf)
  have hrv : valueTagFreeB (match r.rows with
      | none => JSValue.undefined
      | some rws => JSValue.arr (rws.map JSValue.arr)) = true := by
    cases hr : r.rows with
    | none => rfl
    | some rws => exact rowsValue_tagFreeB (hrows rws hr)
  unfold resultValue
  simp only [valueTagFreeB, membersTagFreeB, Bool.and_eq_true]
  repeat' apply And.intro
  all_goals first
    | rfl
    | decide
    | exact all_of_tagFree hcmd
    | exact all_of_tagFree hmsg
    | exact hfv
    | exact hrv

theorem tagFree_stringifyResult {r : QueryResults} (h : ResultTagFree r) :
    tagFree (stringifyResult r) :=
  stringifyJson_tagFree _ (resultValue_tagFreeB h)

/-! ## Occurrence counts of the rendered fragments, by generator -/

theorem piece_getRowCountResult {p : List Char} (hp : p.head? = some '<')
    (h1 : Piece p "<pre class=\"vscode-postgres-result vscode-postgres-result-" 0)
    (h2 : Piece p "\">" 0) (h3 : Piece p " " 0) (h4 : Piece p "</pre>" 0)
    {n : Nat} {t c : String} (ht : tagFree t) (hc : tagFree c) :
    Piece p (getRowCountResult n t c) 0 := by
  unfold getRowCountResult
  have hn : Piece p (natRepr n) 0 := Piece.of_tagFree hp (tagFree_natRepr n)
  have hw : Piece p (if n = 1 then "row" else "rows") 0 := by
    split
    · exact Piece.of_tagFree hp (by decide)
    · exact Piece.of_tagFree hp (by decide)
  exact (((((((h1.append (Piece.of_tagFree hp hc)).append h2).append hn).append
    h3).append hw).append h3).append
    (Piece.of_tagFree hp ht)).append h4

theorem piece_headerCells {p : List Char} (hp : p.head? = some '<')
    {b1 b2 b3 : Nat}
    (h1 : Piece p "<th><div class=\"field-name\">" b1)
    (h2 : Piece p "</div><div class=\"field-type\">" b2)
    (h3 : Piece p "</div></th>" b3)
    {fl : List FieldInfo} (hfl : FieldsTagFree fl) :
    Piece p (headerCells fl) (fl.length * (b1 + b2 + b3)) := by
  revert hfl
  induction fl with
  | nil =>
    intro _
    exact (Piece.of_tagFree hp (by decide)).cast (by simp)
  | cons f fs ih =>
    intro hfl
    have hf := hfl f (List.mem_cons_self f fs)
    have hfs : FieldsTagFree fs := fun g hg => hfl g (List.mem_cons_of_mem f hg)
    have hname : Piece p f.name 0 := Piece.of_tagFree hp hf.1
    have htype : Piece p f.display_type 0 := Piece.of_tagFree hp hf.2.1
    show Piece p ("<th><div class=\"field-name\">" ++ f.name ++
      "</div><div class=\"field-type\">" ++ f.display_type ++ "</div></th>" ++
      headerCells fs) _
    exact (((((h1.append hname).append h2).append htype).append h3).append
      (ih hfs)).cast (by simp [List.length_cons]; ring)

theorem piece_rowCells {p : List Char} (hp : p.head? = some '<')
    {d e g : Nat}
    (hc1 : Piece p "<td class=\"" d) (hc2 : Piece p "-field\">" e)
    (hc3 : Piece p "</td>" g)
    {fmt : Fmt} (hfmt : FmtTagFree fmt) {row : List JSValue}
    {fl : List FieldInfo} (hfl : FieldsTagFree fl) :
    ∀ idx : Nat, Piece p (rowCells fmt row fl idx) (fl.length * (d + e + g)) := by
  revert hfl
  induction fl with
  | nil =>
    intro _ idx
    exact (Piece.of_tagFree hp (show tagFree "" by decide)).cast (by simp)
  | cons f fs ih =>
    intro hfl idx
    have hf := hfl f (List.mem_cons_self f fs)
    have hfs : FieldsTagFree fs := fun x hx => hfl x (List.mem_cons_of_mem f hx)
    have hcell : Piece p (cellText fmt f (row.getD idx .undefined)) 0 :=
      Piece.of_tagFree hp (hfmt f _)
    have hformat : Piece p f.format 0 := Piece.of_tagFree hp hf.2.2
    show Piece p ("<td class=\"" ++ f.format ++ "-field\">" ++
      cellText fmt f (row.getD idx .undefined) ++ "</td>" ++
      rowCells fmt row fs (idx + 1)) _
    exact (((((hc1.append hformat).append hc2).append hcell).append hc3).append
      (ih hfs (idx + 1))).cast (by simp [List.length_cons]; ring)

theorem piece_tableBody {p : List Char} (hp : p.head? = some '<')
    {t1 t2 t3 d e g : Nat}
    (h1 : Piece p "<tr><th class=\"row-header\">" t1)
    (h2 : Piece p "</th>" t2) (h3 : Piece p "</tr>" t3)
    (hc1 : Piece p "<td class=\"" d) (hc2 : Piece p "-field\">" e)
    (hc3 : Piece p "</td>" g)
    {fmt : Fmt} (hfmt : FmtTagFree fmt)
    {fl : List FieldInfo} (hfl : FieldsTagFree fl)
    {rws : List (List JSValue)} :
    ∀ i : Nat, Piece p (tableBody fmt fl rws i)
      (rws.length * (t1 + t2 + fl.length * (d + e + g) + t3)) := by
  induction rws with
  | nil =>
    intro i
    exact (Piece.of_tagFree hp (show tagFree "" by decide)).cast (by simp)
  | cons row rest ih =>
    intro i
    have hnat : Piece p (natRepr i) 0 := Piece.of_tagFree hp (tagFree_natRepr i)
    have hcells : Piece p (rowCells fmt row fl 0) (fl.length * (d + e + g)) :=
      piece_rowCells hp hc1 hc2 hc3 hfmt hfl 0
    show Piece p ("<tr><th class=\"row-header\">" ++ natRepr i ++ "</th>" ++
      rowCells fmt row fl 0 ++ "</tr>" ++ tableBody fmt fl rest (i + 1)) _
    exact (((((h1.append hnat).append h2).append hcells).append h3).append
      (ih (i + 1))).cast (by simp [List.length_cons]; ring)

theorem piece_generateSelectTableResult {p : List Char} (hp : p.head? = some '<')
    {a1 a2 a3 a4 a5 a6 b1 b2 b3 t1 t2 t3 d e g : Nat}
    (L1 : Piece p "<table>" a1) (L2 : Piece p "<thead><tr><th></th>" a2)
    (L3 : Piece p "</tr></thead>" a3) (L4 : Piece p "<tbody>" a4)
    (L5 : Piece p "</tbody>" a5) (L6 : Piece p "</table>" a6)
    (hh1 : Piece p "<th><div class=\"field-name\">" b1)
    (hh2 : Piece p "</div><div class=\"field-type\">" b2)
    (hh3 : Piece p "</div></th>" b3)
    (hb1 : Piece p "<tr><th class=\"row-header\">" t1)
    (hb2 : Piece p "</th>" t2) (hb3 : Piece p "</tr>" t3)
    (hc1 : Piece p "<td class=\"" d) (hc2 : Piece p "-field\">" e)
    (hc3 : Piece p "</td>" g)
    {fmt : Fmt} (hfmt : FmtTagFree fmt) {r : QueryResults}
    (hfl : FieldsTagFree (r.fields.getD [])) :
    Piece p (generateSelectTableResult fmt r)
      (a1 + a2 + (r.fields.getD []).length * (b1 + b2 + b3) + a3 + a4 +
        (if jsLenTruthy r.rows then
          (r.rows.getD []).length *
            (t1 + t2 + (r.fields.getD []).length * (d + e + g) + t3)
        else 0) + a5 + a6) := by
  unfold generateSelectTableResult
  have hhdr := piece_headerCells hp hh1 hh2 hh3 hfl
  have hbody : Piece p
      (if jsLenTruthy r.rows then
        tableBody fmt (r.fields.getD []) (r.rows.getD []) 1
      else "")
      (if jsLenTruthy r.rows then
        (r.rows.getD []).length *
          (t1 + t2 + (r.fields.getD []).length * (d + e + g) + t3)
      else 0) := by
    split
    · exact piece_tableBody hp hb1 hb2 hb3 hc1 hc2 hc3 hfmt hfl 1
    · exact (Piece.of_tagFree hp (by decide)).cast (by simp)
  exact ((((((L1.append L2).append hhdr).append L3).append L4).append
    hbody).append L5).append L6

/-! ## Dispatcher structure -/

theorem aux_false_eq (fmt : Fmt) :
    ∀ (rs : List QueryResults) (x : String),
    x ++ getResultsTablesAux fmt rs false =
      sepJoin divider (x :: rs.map (renderStatement fmt))
  | [], x => by
      rw [show getResultsTablesAux fmt [] false = "" from rfl,
        String.append_empty]
      rfl
  | r :: rs, x => by
      calc x ++ getResultsTablesAux fmt (r :: rs) false
          = x ++ (divider ++ renderStatement fmt r ++
              getResultsTablesAux fmt rs false) := rfl
        _ = (x ++ divider) ++ (renderStatement fmt r ++
              getResultsTablesAux fmt rs false) := by
            simp [String.append_assoc]
        _ = (x ++ divider) ++
              sepJoin divider
                (renderStatement fmt r :: rs.map (renderStatement fmt)) := by
            rw [aux_false_eq fmt rs (renderStatement fmt r)]
        _ = sepJoin divider
              (x :: renderStatement fmt r :: rs.map (renderStatement fmt)) := rfl

theorem getResultsTables_eq_sepJoin (fmt : Fmt) (results : List QueryResults) :
    getResultsTables fmt results =
      sepJoin divider (results.map (renderStatement fmt)) := by
  cases results with
  | nil => rfl
  | cons r rs =>
    calc getResultsTables fmt (r :: rs)
        = "" ++ renderStatement fmt r ++ getResultsTablesAux fmt rs false := rfl
      _ = renderStatement fmt r ++ getResultsTablesAux fmt rs false := by
          rw [String.empty_append]
      _ = sepJoin divider (renderStatement fmt r :: rs.map (renderStatement fmt)) :=
          aux_false_eq fmt rs _
      _ = sepJoin divider ((r :: rs).map (renderStatement fmt)) := by
          rw [List.map_cons]

theorem piece_sepJoin {p : List Char} {sep : String} (hsep : Piece p sep 1) :
    ∀ l : List String, (∀ s ∈ l, Piece p s 0) → l ≠ [] →
    Piece p (sepJoin sep l) (l.length - 1)
  | [], _, h => absurd rfl h
  | [x], h, _ => (h x (List.mem_singleton.mpr rfl)).cast (by simp)
  | x :: y :: rest, h, _ => by
      have hx := h x (List.mem_cons_self _ _)
      have hrest := piece_sepJoin hsep (y :: rest)
        (fun s hs => h s (List.mem_cons_of_mem x hs)) (by simp)
      show Piece p (x ++ sep ++ sepJoin sep (y :: rest)) _
      exact ((hx.append hsep).append hrest).cast (by simp [List.length_cons]; omega)

/-! ## Dispatch equations, one per recognized command -/

theorem renderStatement_message {fmt : Fmt} {r : QueryResults}
    (h : r.command = "ext-message") :
    renderStatement fmt r = generateMessage r := by
  unfold renderStatement
  rw [if_pos h]

theorem renderStatement_insert {fmt : Fmt} {r : QueryResults}
    (h : r.command = "INSERT") :
    renderStatement fmt r = generateInsertResults fmt r := by
  unfold renderStatement
  rw [if_neg (by rw [h]; decide), if_pos h]

theorem renderStatement_update {fmt : Fmt} {r : QueryResults}
    (h : r.command = "UPDATE") :
    renderStatement fmt r = generateUpdateResults fmt r := by
  unfold renderStatement
  rw [if_neg (by rw [h]; decide), if_neg (by rw [h]; decide), if_pos h]

theorem renderStatement_create {fmt : Fmt} {r : QueryResults}
    (h : r.command = "CREATE") :
    renderStatement fmt r = generateCreateResults r := by
  unfold renderStatement
  rw [if_neg (by rw [h]; decide), if_neg (by rw [h]; decide),
    if_neg (by rw [h]; decide), if_pos h]

theorem renderStatement_delete {fmt : Fmt} {r : QueryResults}
    (h : r.command = "DELETE") :
    renderStatement fmt r = generateDeleteResults fmt r := by
  unfold renderStatement
  rw [if_neg (by rw [h]; decide), if_neg (by rw [h]; decide),
    if_neg (by rw [h]; decide), if_neg (by rw [h]; decide), if_pos h]

theorem renderStatement_explain {fmt : Fmt} {r : QueryResults}
    (h : r.command = "EXPLAIN") :
    renderStatement fmt r = generateExplainResult r := by
  unfold renderStatement
  rw [if_neg (by rw [h]; decide), if_neg (by rw [h]; decide),
    if_neg (by rw [h]; decide), if_neg (by rw [h]; decide),
    if_neg (by rw [h]; decide), if_pos h]

theorem renderStatement_select {fmt : Fmt} {r : QueryResults}
    (h : r.command = "SELECT") :
    renderStatement fmt r = generateSelectResult fmt r := by
  unfold renderStatement
  rw [if_neg (by rw [h]; decide), if_neg (by rw [h]; decide),
    if_neg (by rw [h]; decide), if_neg (by rw [h]; decide),
    if_neg (by rw [h]; decide), if_neg (by rw [h]; decide), if_pos h]

theorem renderStatement_generic {fmt : Fmt} {r : QueryResults}
    (h : r.command ∉ ["ext-message", "INSERT", "UPDATE", "CREATE", "DELETE",
      "EXPLAIN", "SELECT"]) :
    renderStatement fmt r = generateGenericResult r := by
  simp only [List.mem_cons, List.mem_singleton, not_or] at h
  unfold renderStatement
  rw [if_neg h.1, if_neg h.2.1, if_neg h.2.2.1, if_neg h.2.2.2.1,
    if_neg h.2.2.2.2.1, if_neg h.2.2.2.2.2.1, if_neg h.2.2.2.2.2.2.1]

/-! ## The divider pattern does not occur inside any statement fragment -/

theorem pieceOf (p : List Char) (s : String) (n : Nat)
    (h : pieceB p s n = true) : Piece p s n := Piece.of_B h

theorem fieldsTagFree_getD {r : QueryResults}
    (h : ∀ fl, r.fields = some fl → FieldsTagFree fl) :
    FieldsTagFree (r.fields.getD []) := by
  cases hf : r.fields with
  | none => exact fun f hf' => absurd hf' (List.not_mem_nil f)
  | some fl => exact h fl hf

theorem piece_divider_summaryTable {fmt : Fmt} (hfmt : FmtTagFree fmt)
    {r : QueryResults} (hfl : FieldsTagFree (r.fields.getD []))
    {t c : String} (ht : tagFree t) (hc : tagFree c) :
    Piece divider.data
      (getRowCountResult r.rowCount t c ++
        (if jsLenTruthy r.fields && jsLenTruthy r.rows then
          generateSelectTableResult fmt r else "")) 0 := by
  have hp : divider.data.head? = some '<' := rfl
  have hsum : Piece divider.data (getRowCountResult r.rowCount t c) 0 :=
    piece_getRowCountResult hp (pieceOf _ _ 0 (by decide))
      (pieceOf _ _ 0 (by decide)) (pieceOf _ _ 0 (by decide))
      (pieceOf _ _ 0 (by decide)) ht hc
  have htab : Piece divider.data
      (if jsLenTruthy r.fields && jsLenTruthy r.rows then
        generateSelectTableResult fmt r else "") 0 := by
    split
    · exact (piece_generateSelectTableResult hp
        (pieceOf _ "<table>" 0 (by decide))
        (pieceOf _ "<thead><tr><th></th>" 0 (by decide))
        (pieceOf _ "</tr></thead>" 0 (by decide))
        (pieceOf _ "<tbody>" 0 (by decide))
        (pieceOf _ "</tbody>" 0 (by decide))
        (pieceOf _ "</table>" 0 (by decide))
        (pieceOf _ "<th><div class=\"field-name\">" 0 (by decide))
        (pieceOf _ "</div><div class=\"field-type\">" 0 (by decide))
        (pieceOf _ "</div></th>" 0 (by decide))
        (pieceOf _ "<tr><th class=\"row-header\">" 0 (by decide))
        (pieceOf _ "</th>" 0 (by decide))
        (pieceOf _ "</tr>" 0 (by decide))
        (pieceOf _ "<td class=\"" 0 (by decide))
        (pieceOf _ "-field\">" 0 (by decide))
        (pieceOf _ "</td>" 0 (by decide))
        hfmt hfl).cast (by simp)
    · exact Piece.of_tagFree hp (show tagFree "" by decide)
  exact (hsum.append htab).cast (by simp)

theorem piece_divider_renderStatement {fmt : Fmt} (hfmt : FmtTagFree fmt)
    {r : QueryResults} (hr : ResultTagFree r) :
    Piece divider.data (renderStatement fmt r) 0 := by
  have hp : divider.data.head? = some '<' := rfl
  have hfl : FieldsTagFree (r.fields.getD []) := fieldsTagFree_getD hr.2.2.1
  unfold renderStatement
  repeat' split
  · exact ((pieceOf _
      "<pre class=\"vscode-postgres-result vscode-postgres-result-message\">" 0
      (by decide)).append
      (Piece.of_tagFree hp hr.2.1)).append (pieceOf _ "</pre>" 0 (by decide))
  · exact piece_divider_summaryTable hfmt hfl (by decide) (by decide)
  · exact piece_divider_summaryTable hfmt hfl (by decide) (by decide)
  · exact piece_getRowCountResult hp (pieceOf _ _ 0 (by decide))
      (pieceOf _ _ 0 (by decide)) (pieceOf _ _ 0 (by decide))
      (pieceOf _ _ 0 (by decide)) (by decide) (by decide)
  · exact piece_divider_summaryTable hfmt hfl (by decide) (by decide)
  · have hmid : tagFree (sepJoin "\n" (jsJoinItems ((r.rows.getD []).map .arr))) := by
      apply tagFree_sepJoin (by decide)
      apply jsJoinItems_tagFree
      cases hrw : r.rows with
      | none => rfl
      | some rws => exact rowsValue_tagFreeB (hr.2.2.2 rws hrw)
    exact ((pieceOf _
      "<pre class=\"vscode-postgres-result vscode-postgres-result-explain\">" 0
      (by decide)).append
      (Piece.of_tagFree hp hmid)).append (pieceOf _ "</pre>" 0 (by decide))
  · have hsum : Piece divider.data
        (getRowCountResult r.rowCount "returned" "select") 0 :=
      piece_getRowCountResult hp (pieceOf _ _ 0 (by decide))
        (pieceOf _ _ 0 (by decide)) (pieceOf _ _ 0 (by decide))
        (pieceOf _ _ 0 (by decide)) (by decide) (by decide)
    have htab : Piece divider.data (generateSelectTableResult fmt r) 0 :=
      (piece_generateSelectTableResult hp
        (pieceOf _ "<table>" 0 (by decide))
        (pieceOf _ "<thead><tr><th></th>" 0 (by decide))
        (pieceOf _ "</tr></thead>" 0 (by decide))
        (pieceOf _ "<tbody>" 0 (by decide))
        (pieceOf _ "</tbody>" 0 (by decide))
        (pieceOf _ "</table>" 0 (by decide))
        (pieceOf _ "<th><div class=\"field-name\">" 0 (by decide))
        (pieceOf _ "</div><div class=\"field-type\">" 0 (by decide))
        (pieceOf _ "</div></th>" 0 (by decide))
        (pieceOf _ "<tr><th class=\"row-header\">" 0 (by decide))
        (pieceOf _ "</th>" 0 (by decide))
        (pieceOf _ "</tr>" 0 (by decide))
        (pieceOf _ "<td class=\"" 0 (by decide))
        (pieceOf _ "-field\">" 0 (by decide))
        (pieceOf _ "</td>" 0 (by decide))
        hfmt hfl).cast (by simp)
    exact hsum.append htab
  · exact ((pieceOf _
      "<pre class=\"vscode-postgres-result vscode-postgres-result-generic\">" 0
      (by decide)).append
      (Piece.of_tagFree hp (tagFree_stringifyResult hr))).append
      (pieceOf _ "</pre>" 0 (by decide))

/-! ## Non-emptiness of every fragment -/

theorem ne_empty_left {a b : String} (ha : a ≠ "") : a ++ b ≠ "" := by
  intro h
  apply ha
  have hd := congrArg String.data h
  rw [String.data_append, show ("" : String).data = [] from rfl] at hd
  rcases List.append_eq_nil.mp hd with ⟨h1, _⟩
  exact String.ext (by rw [h1])

theorem getRowCountResult_ne_empty (n : Nat) (t c : String) :
    getRowCountResult n t c ≠ "" := by
  unfold getRowCountResult
  exact ne_empty_left (ne_empty_left (ne_empty_left (ne_empty_left
    (ne_empty_left (ne_empty_left (ne_empty_left (ne_empty_left (by decide))))))))

theorem renderStatement_ne_empty (fmt : Fmt) (r : QueryResults) :
    renderStatement fmt r ≠ "" := by
  unfold renderStatement
  repeat' split
  · exact ne_empty_left (ne_empty_left (by decide))
  · exact ne_empty_left (getRowCountResult_ne_empty _ _ _)
  · exact ne_empty_left (getRowCountResult_ne_empty _ _ _)
  · exact getRowCountResult_ne_empty _ _ _
  · exact ne_empty_left (getRowCountResult_ne_empty _ _ _)
  · exact ne_empty_left (ne_empty_left (by decide))
  · exact ne_empty_left (getRowCountResult_ne_empty _ _ _)
  · exact ne_empty_left (ne_empty_left (by decide))

theorem sampleFmt_tagFree : FmtTagFree sampleFmt :=
  fun _ _ => show tagFree "x" by decide

theorem sampleCreate_tagFree : ResultTagFree sampleCreate :=
  ⟨by decide, by decide, fun _ h => Option.noConfusion h,
    fun _ h => Option.noConfusion h⟩

theorem sampleMessage_tagFree : ResultTagFree sampleMessage :=
  ⟨by decide, by decide, fun _ h => Option.noConfusion h,
    fun _ h => Option.noConfusion h⟩

/-! ## Claims -/

/-- **C5**: the row-count summary line renders exactly
`{rowCount} {word} {text}` inside its `pre` wrapper, where the word is the
singular "row" precisely when `rowCount = 1` and the plural "rows" for
every other count, including 0 and all counts greater than 1. -/
theorem c5_row_pluralization (n : Nat) (t c : String) :
    getRowCountResult n t c =
      "<pre class=\"vscode-postgres-result vscode-postgres-result-" ++ c ++
        "\">" ++ natRepr n ++ " " ++ (if n = 1 then "row" else "rows") ++
        " " ++ t ++ "</pre>" ∧
    ((if n = 1 then "row" else "rows") = "row" ↔ n = 1) := by
  refine ⟨rfl, ?_⟩
  constructor
  · intro h
    by_contra hn
    rw [if_neg hn] at h
    exact absurd h (by decide)
  · intro h
    rw [if_pos h]

/-- **C9**: a CREATE result renders as the row-count summary alone, and its
fragment contains no `<table>` tag, whatever `fields` and `rows` hold. -/
theorem c9_create_only_summary (fmt : Fmt) (r : QueryResults)
    (h : r.command = "CREATE") :
    renderStatement fmt r = getRowCountResult r.rowCount "created" "create" ∧
    cntS "<table>" (renderStatement fmt r) = 0 := by
  have he : renderStatement fmt r = generateCreateResults r :=
    renderStatement_create h
  refine ⟨he, ?_⟩
  rw [he]
  have hP : Piece "<table>".data
      (getRowCountResult r.rowCount "created" "create") 0 :=
    piece_getRowCountResult
      (show "<table>".data.head? = some '<' from rfl)
      (pieceOf "<table>".data _ 0 (by decide))
      (pieceOf _ _ 0 (by decide)) (pieceOf _ _ 0 (by decide))
      (pieceOf _ _ 0 (by decide)) (by decide) (by decide)
  exact hP.1

/-- Witness for C9 at the concrete CREATE sample. -/
theorem c9_witness :
    renderStatement sampleFmt sampleCreate =
      getRowCountResult sampleCreate.rowCount "created" "create" ∧
    cntS "<table>" (renderStatement sampleFmt sampleCreate) = 0 :=
  c9_create_only_summary sampleFmt sampleCreate rfl

/-- **C6**: an unrecognized command tag falls through to the generic
structural dump, which is a non-empty fragment; moreover the dispatcher
yields a non-empty fragment for every statement result whatsoever. -/
theorem c6_unknown_command_fallback (fmt : Fmt) (r : QueryResults)
    (h : r.command ∉ ["ext-message", "INSERT", "UPDATE", "CREATE", "DELETE",
      "EXPLAIN", "SELECT"]) :
    (renderStatement fmt r = generateGenericResult r ∧
      renderStatement fmt r ≠ "") ∧
    ∀ (fmt' : Fmt) (r' : QueryResults), renderStatement fmt' r' ≠ "" :=
  ⟨⟨renderStatement_generic h, renderStatement_ne_empty fmt r⟩,
    fun fmt' r' => renderStatement_ne_empty fmt' r'⟩

/-- Witness for C6 at the concrete VACUUM sample. -/
theorem c6_witness :
    (renderStatement sampleFmt sampleVacuum =
        generateGenericResult sampleVacuum ∧
      renderStatement sampleFmt sampleVacuum ≠ "") ∧
    renderStatement sampleFmt sampleMessage ≠ "" := by
  have h := c6_unknown_command_fallback sampleFmt sampleVacuum (by decide)
  exact ⟨h.1, h.2 sampleFmt sampleMessage⟩

/-- **C3**: the dispatcher output is exactly the statement fragments joined
with one divider between consecutive fragments (none before the first,
none after the last); consequently, whenever the data is `<`-free so that
fragments cannot contain a spurious divider, a batch of N results contains
exactly N − 1 divider markers. -/
theorem c3_divider_placement (fmt : Fmt) (results : List QueryResults) :
    getResultsTables fmt results =
      sepJoin divider (results.map (renderStatement fmt)) ∧
    (FmtTagFree fmt → (∀ r ∈ results, ResultTagFree r) → results ≠ [] →
      cntS divider (getResultsTables fmt results) = results.length - 1) := by
  refine ⟨getResultsTables_eq_sepJoin fmt results, ?_⟩
  intro hfmt hall hne
  rw [getResultsTables_eq_sepJoin fmt results]
  have hfrag : ∀ s ∈ results.map (renderStatement fmt),
      Piece divider.data s 0 := by
    intro s hs
    rw [List.mem_map] at hs
    obtain ⟨r, hr, rfl⟩ := hs
    exact piece_divider_renderStatement hfmt (hall r hr)
  have hjoin := piece_sepJoin (pieceOf divider.data divider 1 (by decide))
    (results.map (renderStatement fmt)) hfrag
    (fun hmap => hne (List.map_eq_nil_iff.mp hmap))
  rw [List.length_map] at hjoin
  exact hjoin.1

/-- Witness for C3 on a concrete two-statement batch. -/
theorem c3_witness :
    cntS divider (getResultsTables sampleFmt [sampleCreate, sampleMessage]) =
      [sampleCreate, sampleMessage].length - 1 :=
  (c3_divider_placement sampleFmt [sampleCreate, sampleMessage]).2
    sampleFmt_tagFree
    (by
      intro r hr
      rw [List.mem_cons, List.mem_singleton] at hr
      rcases hr with rfl | rfl
      · exact sampleCreate_tagFree
      · exact sampleMessage_tagFree)
    (List.cons_ne_nil _ _)

/-! ## Counting the table structure -/

theorem cntS_append (p : String) {a b : String} (h : SpanFree p.data a.data) :
    cntS p (a ++ b) = cntS p a + cntS p b := by
  unfold cntS
  rw [String.data_append]
  exact cnt_append _ _ h

theorem table_counts {fmt : Fmt} (hfmt : FmtTagFree fmt) {r : QueryResults}
    {fl : List FieldInfo} (hfield : r.fields = some fl)
    (hfl : FieldsTagFree fl) :
    cntS "<table>" (generateSelectTableResult fmt r) = 1 ∧
    cntS "<th>" (generateSelectTableResult fmt r) = fl.length + 1 ∧
    cntS "<tr>" (generateSelectTableResult fmt r) =
      1 + (if jsLenTruthy r.rows then (r.rows.getD []).length else 0) := by
  have hgd : r.fields.getD [] = fl := by rw [hfield]; rfl
  have hfl' : FieldsTagFree (r.fields.getD []) := by rw [hgd]; exact hfl
  refine ⟨?_, ?_, ?_⟩
  · have h := piece_generateSelectTableResult
      (show "<table>".data.head? = some '<' from rfl)
      (pieceOf "<table>".data "<table>" 1 (by decide))
      (pieceOf _ "<thead><tr><th></th>" 0 (by decide))
      (pieceOf _ "</tr></thead>" 0 (by decide))
      (pieceOf _ "<tbody>" 0 (by decide))
      (pieceOf _ "</tbody>" 0 (by decide))
      (pieceOf _ "</table>" 0 (by decide))
      (pieceOf _ "<th><div class=\"field-name\">" 0 (by decide))
      (pieceOf _ "</div><div class=\"field-type\">" 0 (by decide))
      (pieceOf _ "</div></th>" 0 (by decide))
      (pieceOf _ "<tr><th class=\"row-header\">" 0 (by decide))
      (pieceOf _ "</th>" 0 (by decide))
      (pieceOf _ "</tr>" 0 (by decide))
      (pieceOf _ "<td class=\"" 0 (by decide))
      (pieceOf _ "-field\">" 0 (by decide))
      (pieceOf _ "</td>" 0 (by decide))
      hfmt hfl'
    exact (h.cast (by cases hb : jsLenTruthy r.rows <;> simp [hb])).1
  · have h := piece_generateSelectTableResult
      (show "<th>".data.head? = some '<' from rfl)
      (pieceOf "<th>".data "<table>" 0 (by decide))
      (pieceOf _ "<thead><tr><th></th>" 1 (by decide))
      (pieceOf _ "</tr></thead>" 0 (by decide))
      (pieceOf _ "<tbody>" 0 (by decide))
      (pieceOf _ "</tbody>" 0 (by decide))
      (pieceOf _ "</table>" 0 (by decide))
      (pieceOf _ "<th><div class=\"field-name\">" 1 (by decide))
      (pieceOf _ "</div><div class=\"field-type\">" 0 (by decide))
      (pieceOf _ "</div></th>" 0 (by decide))
      (pieceOf _ "<tr><th class=\"row-header\">" 0 (by decide))
      (pieceOf _ "</th>" 0 (by decide))
      (pieceOf _ "</tr>" 0 (by decide))
      (pieceOf _ "<td class=\"" 0 (by decide))
      (pieceOf _ "-field\">" 0 (by decide))
      (pieceOf _ "</td>" 0 (by decide))
      hfmt hfl'
    exact (h.cast (by
      rw [hgd]
      cases hb : jsLenTruthy r.rows <;> simp [hb] <;> try omega)).1
  · have h := piece_generateSelectTableResult
      (show "<tr>".data.head? = some '<' from rfl)
      (pieceOf "<tr>".data "<table>" 0 (by decide))
      (pieceOf _ "<thead><tr><th></th>" 1 (by decide))
      (pieceOf _ "</tr></thead>" 0 (by decide))
      (pieceOf _ "<tbody>" 0 (by decide))
      (pieceOf _ "</tbody>" 0 (by decide))
      (pieceOf _ "</table>" 0 (by decide))
      (pieceOf _ "<th><div class=\"field-name\">" 0 (by decide))
      (pieceOf _ "</div><div class=\"field-type\">" 0 (by decide))
      (pieceOf _ "</div></th>" 0 (by decide))
      (pieceOf _ "<tr><th class=\"row-header\">" 1 (by decide))
      (pieceOf _ "</th>" 0 (by decide))
      (pieceOf _ "</tr>" 0 (by decide))
      (pieceOf _ "<td class=\"" 0 (by decide))
      (pieceOf _ "-field\">" 0 (by decide))
      (pieceOf _ "</td>" 0 (by decide))
      hfmt hfl'
    exact (h.cast (by
      cases hb : jsLenTruthy r.rows <;> simp [hb])).1

theorem summary_piece_of_pattern (pat : String)
    (hp : pat.data.head? = some '<')
    (h1 : pieceB pat.data
      "<pre class=\"vscode-postgres-result vscode-postgres-result-" 0 = true)
    (h2 : pieceB pat.data "\">" 0 = true)
    (h3 : pieceB pat.data " " 0 = true)
    (h4 : pieceB pat.data "</pre>" 0 = true)
    {n : Nat} {t c : String} (ht : tagFree t) (hc : tagFree c) :
    Piece pat.data (getRowCountResult n t c) 0 :=
  piece_getRowCountResult hp (Piece.of_B h1) (Piece.of_B h2) (Piece.of_B h3)
    (Piece.of_B h4) ht hc

theorem dml_counts {fmt : Fmt} (hfmt : FmtTagFree fmt) {r : QueryResults}
    {fl : List FieldInfo} {rws : List (List JSValue)}
    (hfield : r.fields = some fl) (hrows : r.rows = some rws)
    (hrne : rws ≠ []) (hfl : FieldsTagFree fl)
    {t c : String} (ht : tagFree t) (hc : tagFree c) :
    cntS "<table>" (getRowCountResult r.rowCount t c ++
      generateSelectTableResult fmt r) = 1 ∧
    cntS "<th>" (getRowCountResult r.rowCount t c ++
      generateSelectTableResult fmt r) = fl.length + 1 ∧
    cntS "<tr>" (getRowCountResult r.rowCount t c ++
      generateSelectTableResult fmt r) = 1 + rws.length := by
  have htab := table_counts hfmt hfield hfl
  have hite : (if jsLenTruthy r.rows then (r.rows.getD []).length else 0) =
      rws.length := by
    rw [hrows]
    have hz : rws.length ≠ 0 := fun h => hrne (List.length_eq_zero.mp h)
    simp [jsLenTruthy, hz]
  have hs1 : Piece "<table>".data (getRowCountResult r.rowCount t c) 0 :=
    summary_piece_of_pattern "<table>" rfl (by decide) (by decide) (by decide)
      (by decide) ht hc
  have hs2 : Piece "<th>".data (getRowCountResult r.rowCount t c) 0 :=
    summary_piece_of_pattern "<th>" rfl (by decide) (by decide) (by decide)
      (by decide) ht hc
  have hs3 : Piece "<tr>".data (getRowCountResult r.rowCount t c) 0 :=
    summary_piece_of_pattern "<tr>" rfl (by decide) (by decide) (by decide)
      (by decide) ht hc
  have e1 : cntS "<table>" (getRowCountResult r.rowCount t c) = 0 := hs1.1
  have e2 : cntS "<th>" (getRowCountResult r.rowCount t c) = 0 := hs2.1
  have e3 : cntS "<tr>" (getRowCountResult r.rowCount t c) = 0 := hs3.1
  refine ⟨?_, ?_, ?_⟩
  · rw [cntS_append _ hs1.2, e1, htab.1]
  · rw [cntS_append _ hs2.2, e2, htab.2.1]
    omega
  · rw [cntS_append _ hs3.2, e3, htab.2.2, hite]
    omega

/-- **C1**: for INSERT/UPDATE/DELETE results carrying non-empty `fields`
and `rows` (RETURNING-style output), the rendered fragment contains
exactly one table (`<table>` count 1); the table's header cells number
`fields.length + 1` (`<th>` count: the leading empty index cell plus one
per field — the body's index cells are `<th class=...>`, not `<th>`), and
the row total is the single header row plus one row per data row (`<tr>`
count `1 + rows.length`).  When `fields` or `rows` is empty or absent, the
fragment is exactly the row-count summary with no table. -/
theorem c1_dml_table (fmt : Fmt) (r : QueryResults) :
    (∀ (fl : List FieldInfo) (rws : List (List JSValue)),
      (r.command = "INSERT" ∨ r.command = "UPDATE" ∨ r.command = "DELETE") →
      r.fields = some fl → r.rows = some rws → fl ≠ [] → rws ≠ [] →
      FmtTagFree fmt → FieldsTagFree fl →
      cntS "<table>" (renderStatement fmt r) = 1 ∧
      cntS "<th>" (renderStatement fmt r) = fl.length + 1 ∧
      cntS "<tr>" (renderStatement fmt r) = 1 + rws.length) ∧
    ((r.command = "INSERT" ∨ r.command = "UPDATE" ∨ r.command = "DELETE") →
      ¬(jsLenTruthy r.fields = true ∧ jsLenTruthy r.rows = true) →
      renderStatement fmt r =
          getRowCountResult r.rowCount "inserted" "insert" ∨
        renderStatement fmt r =
          getRowCountResult r.rowCount "updated" "update" ∨
        renderStatement fmt r =
          getRowCountResult r.rowCount "deleted" "delete") := by
  constructor
  · intro fl rws hcmd hfield hrows hflne hrne hfmt hfl
    have hguard : (jsLenTruthy r.fields && jsLenTruthy r.rows) = true := by
      rw [hfield, hrows]
      have h1 : fl.length ≠ 0 := fun h => hflne (List.length_eq_zero.mp h)
      have h2 : rws.length ≠ 0 := fun h => hrne (List.length_eq_zero.mp h)
      simp [jsLenTruthy, h1, h2]
    rcases hcmd with hcmd | hcmd | hcmd
    · have he : renderStatement fmt r =
          getRowCountResult r.rowCount "inserted" "insert" ++
            generateSelectTableResult fmt r := by
        rw [renderStatement_insert hcmd]
        unfold generateInsertResults
        rw [if_pos hguard]
      rw [he]
      exact dml_counts hfmt hfield hrows hrne hfl
        (show tagFree "inserted" by decide) (show tagFree "insert" by decide)
    · have he : renderStatement fmt r =
          getRowCountResult r.rowCount "updated" "update" ++
            generateSelectTableResult fmt r := by
        rw [renderStatement_update hcmd]
        unfold generateUpdateResults
        rw [if_pos hguard]
      rw [he]
      exact dml_counts hfmt hfield hrows hrne hfl
        (show tagFree "updated" by decide) (show tagFree "update" by decide)
    · have he : renderStatement fmt r =
          getRowCountResult r.rowCount "deleted" "delete" ++
            generateSelectTableResult fmt r := by
        rw [renderStatement_delete hcmd]
        unfold generateDeleteResults
        rw [if_pos hguard]
      rw [he]
      exact dml_counts hfmt hfield hrows hrne hfl
        (show tagFree "deleted" by decide) (show tagFree "delete" by decide)
  · intro hcmd hne
    have hguard : (jsLenTruthy r.fields && jsLenTruthy r.rows) ≠ true := by
      intro hh
      rw [Bool.and_eq_true] at hh
      exact hne hh
    rcases hcmd with hcmd | hcmd | hcmd
    · left
      rw [renderStatement_insert hcmd]
      unfold generateInsertResults
      rw [if_neg hguard, String.append_empty]
    · right; left
      rw [renderStatement_update hcmd]
      unfold generateUpdateResults
      rw [if_neg hguard, String.append_empty]
    · right; right
      rw [renderStatement_delete hcmd]
      unfold generateDeleteResults
      rw [if_neg hguard, String.append_empty]

/-- Witness for C1 at a concrete INSERT … RETURNING result with two
columns and two rows, and at a plain INSERT without row-shaped output. -/
theorem c1_witness :
    (cntS "<table>" (renderStatement sampleFmt sampleInsert) = 1 ∧
      cntS "<th>" (renderStatement sampleFmt sampleInsert) =
        sampleFields.length + 1 ∧
      cntS "<tr>" (renderStatement sampleFmt sampleInsert) =
        1 + sampleRows.length) ∧
    (renderStatement sampleFmt samplePlainInsert =
        getRowCountResult samplePlainInsert.rowCount "inserted" "insert" ∨
      renderStatement sampleFmt samplePlainInsert =
        getRowCountResult samplePlainInsert.rowCount "updated" "update" ∨
      renderStatement sampleFmt samplePlainInsert =
        getRowCountResult samplePlainInsert.rowCount "deleted" "delete") :=
  ⟨(c1_dml_table sampleFmt sampleInsert).1 sampleFields sampleRows
      (Or.inl rfl) rfl rfl (List.cons_ne_nil _ _) (List.cons_ne_nil _ _)
      sampleFmt_tagFree (by decide),
    (c1_dml_table sampleFmt samplePlainInsert).2 (Or.inl rfl)
      (by intro h; exact absurd h.1 (by decide))⟩

/-- **C2**: a SELECT fragment is the row-count summary followed
unconditionally by the table fragment; it contains exactly one table, and
when `rows` is empty or absent the table consists of the header row alone
(`<tr>` count 1, `<th>` count `fields.length + 1`, empty body). -/
theorem c2_select_unconditional_table (fmt : Fmt) (r : QueryResults)
    (fl : List FieldInfo) (hcmd : r.command = "SELECT")
    (hfield : r.fields = some fl) (hfmt : FmtTagFree fmt)
    (hfl : FieldsTagFree fl) :
    renderStatement fmt r =
      getRowCountResult r.rowCount "returned" "select" ++
        generateSelectTableResult fmt r ∧
    cntS "<table>" (renderStatement fmt r) = 1 ∧
    ((r.rows = none ∨ r.rows = some []) →
      cntS "<tr>" (renderStatement fmt r) = 1 ∧
      cntS "<th>" (renderStatement fmt r) = fl.length + 1) := by
  have he : renderStatement fmt r =
      getRowCountResult r.rowCount "returned" "select" ++
        generateSelectTableResult fmt r := by
    rw [renderStatement_select hcmd]
    rfl
  have htab := table_counts hfmt hfield hfl
  have hs1 : Piece "<table>".data
      (getRowCountResult r.rowCount "returned" "select") 0 :=
    summary_piece_of_pattern "<table>" rfl (by decide) (by decide) (by decide)
      (by decide) (by decide) (by decide)
  have hs2 : Piece "<th>".data
      (getRowCountResult r.rowCount "returned" "select") 0 :=
    summary_piece_of_pattern "<th>" rfl (by decide) (by decide) (by decide)
      (by decide) (by decide) (by decide)
  have hs3 : Piece "<tr>".data
      (getRowCountResult r.rowCount "returned" "select") 0 :=
    summary_piece_of_pattern "<tr>" rfl (by decide) (by decide) (by decide)
      (by decide) (by decide) (by decide)
  have e1 : cntS "<table>"
      (getRowCountResult r.rowCount "returned" "select") = 0 := hs1.1
  have e2 : cntS "<th>"
      (getRowCountResult r.rowCount "returned" "select") = 0 := hs2.1
  have e3 : cntS "<tr>"
      (getRowCountResult r.rowCount "returned" "select") = 0 := hs3.1
  refine ⟨he, ?_, ?_⟩
  · rw [he, cntS_append _ hs1.2, e1, htab.1]
  · intro hrows
    have hite : (if jsLenTruthy r.rows then (r.rows.getD []).length else 0) =
        0 := by
      rcases hrows with h | h <;> rw [h] <;> simp [jsLenTruthy]
    constructor
    · rw [he, cntS_append _ hs3.2, e3, htab.2.2, hite]
    · rw [he, cntS_append _ hs2.2, e2, htab.2.1]
      omega

/-- Witness for C2 at a concrete SELECT with two columns and no rows. -/
theorem c2_witness :
    cntS "<table>" (renderStatement sampleFmt sampleEmptySelect) = 1 ∧
    cntS "<tr>" (renderStatement sampleFmt sampleEmptySelect) = 1 ∧
    cntS "<th>" (renderStatement sampleFmt sampleEmptySelect) =
      sampleFields.length + 1 := by
  have h := c2_select_unconditional_table sampleFmt sampleEmptySelect
    sampleFields rfl rfl sampleFmt_tagFree (by decide)
  have h3 := h.2.2 (Or.inr rfl)
  exact ⟨h.2.1, h3.1, h3.2⟩

/-! ## The quote-escaping round trip -/

theorem unescape_cons_skip {c : Char} {s : List Char}
    (h : ¬ (['&', 'q', 'u', 'o', 't', ';'] <+: (c :: s))) :
    unescapeQuotesL (c :: s) = c :: unescapeQuotesL s := by
  rw [unescapeQuotesL.eq_def]
  split
  · rename_i heq
    exact absurd heq (List.cons_ne_nil c s)
  · rename_i x rest heq
    exfalso
    apply h
    rw [heq]
    exact ⟨rest, rfl⟩
  · rename_i x1 c2 s2 hno heq
    injection heq with h1 h2
    rw [h1, h2]

theorem prefix_escape_iff :
    ∀ (q t : List Char), (∀ ch ∈ q, ch ≠ '"' ∧ ch ≠ '&') →
    (q <+: escapeQuotesL t ↔ q <+: t)
  | [], t, _ => by simp [List.nil_prefix]
  | a :: q', [], _ => Iff.rfl
  | a :: q', d :: t', hq => by
      have ha := hq a (List.mem_cons_self _ _)
      by_cases hd : d = '"'
      · subst hd
        rw [show escapeQuotesL ('"' :: t') =
          '&' :: 'q' :: 'u' :: 'o' :: 't' :: ';' :: escapeQuotesL t' from by
            simp [escapeQuotesL]]
        constructor
        · intro hpre
          rw [List.cons_prefix_cons] at hpre
          exact absurd hpre.1 ha.2
        · intro hpre
          rw [List.cons_prefix_cons] at hpre
          exact absurd hpre.1 ha.1
      · have he : escapeQuotesL (d :: t') = d :: escapeQuotesL t' := by
          simp [escapeQuotesL, hd]
        rw [he, List.cons_prefix_cons, List.cons_prefix_cons,
          prefix_escape_iff q' t' (fun ch hch => hq ch (List.mem_cons_of_mem a hch))]

theorem unescape_escape_of_no_quot :
    ∀ s : List Char, ¬ (['&', 'q', 'u', 'o', 't', ';'] <:+: s) →
    unescapeQuotesL (escapeQuotesL s) = s
  | [], _ => rfl
  | c :: t, h => by
      have ht : ¬ (['&', 'q', 'u', 'o', 't', ';'] <:+: t) :=
        fun hin => h (List.infix_cons hin)
      by_cases hc : c = '"'
      · subst hc
        rw [show escapeQuotesL ('"' :: t) =
          '&' :: 'q' :: 'u' :: 'o' :: 't' :: ';' :: escapeQuotesL t from by
            simp [escapeQuotesL]]
        rw [show unescapeQuotesL ('&' :: 'q' :: 'u' :: 'o' :: 't' :: ';' ::
          escapeQuotesL t) = '"' :: unescapeQuotesL (escapeQuotesL t) from rfl]
        rw [unescape_escape_of_no_quot t ht]
      · have he : escapeQuotesL (c :: t) = c :: escapeQuotesL t := by
          simp [escapeQuotesL, hc]
        rw [he]
        have hnp : ¬ (['&', 'q', 'u', 'o', 't', ';'] <+:
            (c :: escapeQuotesL t)) := by
          intro hpre
          rw [List.cons_prefix_cons] at hpre
          have h2 := (prefix_escape_iff ['q', 'u', 'o', 't', ';'] t
            (by decide)).mp hpre.2
          apply h
          apply List.IsPrefix.isInfix
          rw [List.cons_prefix_cons]
          exact ⟨hpre.1, h2⟩
        rw [unescape_cons_skip hnp]
        rw [unescape_escape_of_no_quot t ht]

/-- **C4** (amended): for every serializable state value whose serialized
text contains no occurrence of `&quot;`, reversing the quote escaping
recovers the serialized text exactly — hence deserialization recovers the
original state.  (As stated over *all* serializable values the round trip
fails: see the counterexample, where the escaping is not injective on the
serialized text.) -/
theorem c4_state_roundtrip_amended (v : JSValue)
    (_hser : v ≠ JSValue.undefined)
    (h : ¬ ("&quot;".data <:+: (stringifyJson v).data)) :
    unescapeQuotes (escapeQuotes (stringifyJson v)) = stringifyJson v := by
  apply String.ext
  show unescapeQuotesL (escapeQuotesL (stringifyJson v).data) =
    (stringifyJson v).data
  exact unescape_escape_of_no_quot _ h

/-- Counterexample to C4 as stated: for the state string `&quot;` the
serialized text is `"&quot;"`; escaping it and then reversing the escaping
yields `"""`, which differs from the serialized text — and `"""` is not
valid JSON, so `JSON.parse` fails on it rather than returning the original
state. -/
theorem c4_counterexample :
    stringifyJson (JSValue.str "&quot;") = "\"&quot;\"" ∧
    unescapeQuotes (escapeQuotes (stringifyJson (JSValue.str "&quot;"))) =
      "\"\"\"" ∧
    unescapeQuotes (escapeQuotes (stringifyJson (JSValue.str "&quot;"))) ≠
      stringifyJson (JSValue.str "&quot;") := by
  have hs : stringifyJson (JSValue.str "&quot;") = "\"&quot;\"" := by
    simp only [stringifyJson]
    decide
  refine ⟨hs, ?_, ?_⟩
  · rw [hs]; decide
  · rw [hs]; decide

/-- Witness for the amended C4 at a state string containing quotes. -/
theorem c4_witness :
    unescapeQuotes (escapeQuotes (stringifyJson
      (JSValue.str "hello \"world\""))) =
      stringifyJson (JSValue.str "hello \"world\"") := by
  have hs : stringifyJson (JSValue.str "hello \"world\"") =
      "\"hello \\\"world\\\"\"" := by
    simp only [stringifyJson]
    decide
  exact c4_state_roundtrip_amended _ (fun hx => JSValue.noConfusion hx)
    (by rw [hs]; decide)

/-! ## Row-index numbering -/

theorem enumFrom_succ_shift {α : Type} :
    ∀ (l : List α) (i : Nat),
    List.enumFrom (i + 1) l = (List.enumFrom i l).map fun p => (p.1 + 1, p.2)
  | [], _ => rfl
  | a :: l, i => by
      rw [show List.enumFrom (i + 1) (a :: l) =
        (i + 1, a) :: List.enumFrom (i + 2) l from rfl]
      rw [show List.enumFrom i (a :: l) = (i, a) :: List.enumFrom (i + 1) l
        from rfl]
      rw [List.map_cons, enumFrom_succ_shift l (i + 1)]

theorem tableBody_enumFrom (fmt : Fmt) (fl : List FieldInfo) :
    ∀ (rws : List (List JSValue)) (i : Nat),
    tableBody fmt fl rws i =
      strConcat ((List.enumFrom i rws).map fun p =>
        "<tr><th class=\"row-header\">" ++ natRepr p.1 ++ "</th>" ++
          rowCells fmt p.2 fl 0 ++ "</tr>")
  | [], _ => rfl
  | row :: rest, i => by
      rw [show List.enumFrom i (row :: rest) =
        (i, row) :: List.enumFrom (i + 1) rest from rfl]
      rw [List.map_cons]
      rw [show strConcat (("<tr><th class=\"row-header\">" ++ natRepr i ++
        "</th>" ++ rowCells fmt row fl 0 ++ "</tr>") ::
        (List.enumFrom (i + 1) rest).map fun p =>
          "<tr><th class=\"row-header\">" ++ natRepr p.1 ++ "</th>" ++
            rowCells fmt p.2 fl 0 ++ "</tr>") =
        ("<tr><th class=\"row-header\">" ++ natRepr i ++ "</th>" ++
          rowCells fmt row fl 0 ++ "</tr>") ++
          strConcat ((List.enumFrom (i + 1) rest).map fun p =>
            "<tr><th class=\"row-header\">" ++ natRepr p.1 ++ "</th>" ++
              rowCells fmt p.2 fl 0 ++ "</tr>") from rfl]
      rw [← tableBody_enumFrom fmt fl rest (i + 1)]
      rfl

theorem sepJoin_append_single (sep : String) :
    ∀ (l : List String) (x : String),
    sepJoin sep (l ++ [x]) =
      sepJoin sep l ++ (if l.isEmpty then "" else sep) ++ x
  | [], x => by
      rw [show sepJoin sep ([] ++ [x]) = x from rfl,
        show sepJoin sep [] = "" from rfl,
        show (if ([] : List String).isEmpty then "" else sep) = "" from rfl,
        show ("" : String) ++ "" = "" from rfl, String.empty_append]
  | [y], x => rfl
  | y :: z :: rest, x => by
      show y ++ sep ++ sepJoin sep ((z :: rest) ++ [x]) = _
      rw [sepJoin_append_single sep (z :: rest) x]
      rw [show (if (z :: rest).isEmpty then "" else sep) = sep from rfl]
      rw [show (if (y :: z :: rest).isEmpty then "" else sep) = sep from rfl]
      rw [show sepJoin sep (y :: z :: rest) =
        y ++ sep ++ sepJoin sep (z :: rest) from rfl]
      simp [String.append_assoc]

/-- **C7**: the body-row loop numbers rows purely positionally — the
fragment for the i-th row (0-based) carries index cell `i + 1`, so the
index column reads 1, 2, …, rows.length regardless of the data — and a
statement appended to a batch renders exactly as it does standalone (its
numbering restarts at 1), the batch merely prefixing the earlier fragments
and a divider. -/
theorem c7_row_index_positional (fmt : Fmt) (fl : List FieldInfo) :
    (∀ rws : List (List JSValue),
      tableBody fmt fl rws 1 =
        strConcat (rws.enum.map fun p =>
          "<tr><th class=\"row-header\">" ++ natRepr (p.1 + 1) ++ "</th>" ++
            rowCells fmt p.2 fl 0 ++ "</tr>")) ∧
    (∀ (results : List QueryResults) (r : QueryResults),
      getResultsTables fmt (results ++ [r]) =
        getResultsTables fmt results ++
          (if results.isEmpty then "" else divider) ++
          renderStatement fmt r) := by
  constructor
  · intro rws
    rw [tableBody_enumFrom fmt fl rws 1]
    rw [show List.enumFrom 1 rws =
      (List.enumFrom 0 rws).map (fun p => (p.1 + 1, p.2)) from
      enumFrom_succ_shift rws 0]
    rw [List.map_map]
    rfl
  · intro results r
    rw [getResultsTables_eq_sepJoin, getResultsTables_eq_sepJoin,
      List.map_append, List.map_cons, List.map_nil]
    rw [sepJoin_append_single]
    have hie : (results.map (renderStatement fmt)).isEmpty = results.isEmpty := by
      cases results <;> rfl
    rw [hie]

/-- **C8**: an EXPLAIN fragment is the row sequence joined by newlines
inside a single preformatted block (each row array converted to its line
of plan text), and it carries no tabular structure: no `<table>`, `<tr>`
or `<th>` token occurs in it when the plan text is `<`-free. -/
theorem c8_explain_newline_joined (fmt : Fmt) (r : QueryResults)
    (rws : List (List JSValue)) (hcmd : r.command = "EXPLAIN")
    (hrows : r.rows = some rws)
    (hvals : ∀ row ∈ rws, ∀ v ∈ row, valueTagFreeB v = true) :
    renderStatement fmt r =
      "<pre class=\"vscode-postgres-result vscode-postgres-result-explain\">" ++
        sepJoin "\n" (jsJoinItems (rws.map .arr)) ++ "</pre>" ∧
    cntS "<table>" (renderStatement fmt r) = 0 ∧
    cntS "<tr>" (renderStatement fmt r) = 0 ∧
    cntS "<th>" (renderStatement fmt r) = 0 := by
  have he : renderStatement fmt r =
      "<pre class=\"vscode-postgres-result vscode-postgres-result-explain\">" ++
        sepJoin "\n" (jsJoinItems (rws.map .arr)) ++ "</pre>" := by
    rw [renderStatement_explain hcmd]
    unfold generateExplainResult
    rw [hrows]
    rfl
  have hmid : tagFree (sepJoin "\n" (jsJoinItems (rws.map .arr))) :=
    tagFree_sepJoin (by decide) _
      (jsJoinItems_tagFree _ (rowsValue_tagFreeB hvals))
  have h1 : Piece "<table>".data
      ("<pre class=\"vscode-postgres-result vscode-postgres-result-explain\">" ++
        sepJoin "\n" (jsJoinItems (rws.map .arr)) ++ "</pre>") 0 :=
    ((pieceOf "<table>".data _ 0 (by decide)).append
      (Piece.of_tagFree (show "<table>".data.head? = some '<' from rfl) hmid)).append
      (pieceOf _ "</pre>" 0 (by decide))
  have h2 : Piece "<tr>".data
      ("<pre class=\"vscode-postgres-result vscode-postgres-result-explain\">" ++
        sepJoin "\n" (jsJoinItems (rws.map .arr)) ++ "</pre>") 0 :=
    ((pieceOf "<tr>".data _ 0 (by decide)).append
      (Piece.of_tagFree (show "<tr>".data.head? = some '<' from rfl) hmid)).append
      (pieceOf _ "</pre>" 0 (by decide))
  have h3 : Piece "<th>".data
      ("<pre class=\"vscode-postgres-result vscode-postgres-result-explain\">" ++
        sepJoin "\n" (jsJoinItems (rws.map .arr)) ++ "</pre>") 0 :=
    ((pieceOf "<th>".data _ 0 (by decide)).append
      (Piece.of_tagFree (show "<th>".data.head? = some '<' from rfl) hmid)).append
      (pieceOf _ "</pre>" 0 (by decide))
  have e1 : cntS "<table>"
      ("<pre class=\"vscode-postgres-result vscode-postgres-result-explain\">" ++
        sepJoin "\n" (jsJoinItems (rws.map .arr)) ++ "</pre>") = 0 := h1.1
  have e2 : cntS "<tr>"
      ("<pre class=\"vscode-postgres-result vscode-postgres-result-explain\">" ++
        sepJoin "\n" (jsJoinItems (rws.map .arr)) ++ "</pre>") = 0 := h2.1
  have e3 : cntS "<th>"
      ("<pre class=\"vscode-postgres-result vscode-postgres-result-explain\">" ++
        sepJoin "\n" (jsJoinItems (rws.map .arr)) ++ "</pre>") = 0 := h3.1
  refine ⟨he, ?_, ?_, ?_⟩
  · rw [he]; exact e1
  · rw [he]; exact e2
  · rw [he]; exact e3

/-- Witness for C8 at a concrete two-line EXPLAIN plan. -/
theorem c8_witness :
    renderStatement sampleFmt sampleExplain =
      "<pre class=\"vscode-postgres-result vscode-postgres-result-explain\">" ++
        sepJoin "\n" (jsJoinItems
          ([[JSValue.str "Seq Scan on t"], [JSValue.str "  Filter: x"]].map
            JSValue.arr)) ++ "</pre>" ∧
    cntS "<table>" (renderStatement sampleFmt sampleExplain) = 0 := by
  have h := c8_explain_newline_joined sampleFmt sampleExplain
    [[JSValue.str "Seq Scan on t"], [JSValue.str "  Filter: x"]] rfl rfl
    (by
      intro row hrow v hv
      rw [List.mem_cons, List.mem_singleton] at hrow
      rcases hrow with rfl | rfl <;>
        (rw [List.mem_singleton] at hv; subst hv;
          simp only [valueTagFreeB]; decide))
  exact ⟨h.1, h.2.1⟩

/-- **C10**: a falsy caller-supplied state (absent, `null`, `0`, `""` or
`false`) embeds the serialization of the empty object — the `data-state`
attribute text is `{}`, never the text `undefined` or `null` — and the
whole generated document coincides with the one generated for an explicit
empty-object state. -/
theorem c10_falsy_state_empty_object (state : JSValue)
    (h : jsTruthy state = false) :
    stateText state = "\x7b\x7d" ∧
    stateText state ≠ "undefined" ∧ stateText state ≠ "null" ∧
    ∀ (pageScript nonce : String) (pretty : Bool) (fmt : Fmt)
      (results : List QueryResults),
      generateResultsHtml pageScript nonce pretty fmt results state =
        generateResultsHtml pageScript nonce pretty fmt results
          (JSValue.obj []) := by
  have hor : jsOr state (JSValue.obj []) = JSValue.obj [] := by
    unfold jsOr
    rw [h]
    rfl
  have hobj : stringifyJson (JSValue.obj []) = "\x7b\x7d" := by
    rw [stringifyJson]
    rw [show stringifyMembers [] = [] from by rw [stringifyMembers]]
    decide
  have hst : stateText state = "\x7b\x7d" := by
    unfold stateText
    rw [hor, hobj]
    decide
  have hst2 : stateText (JSValue.obj []) = "\x7b\x7d" := by
    unfold stateText
    rw [show jsOr (JSValue.obj []) (JSValue.obj []) = JSValue.obj [] from rfl,
      hobj]
    decide
  refine ⟨hst, by rw [hst]; decide, by rw [hst]; decide, ?_⟩
  intro pageScript nonce pretty fmt results
  unfold generateResultsHtml
  rw [hst, hst2]

/-- Witness for C10 at the falsy state `null` with concrete document
parameters. -/
theorem c10_witness :
    stateText JSValue.null = "\x7b\x7d" ∧
    stateText JSValue.null ≠ "undefined" ∧
    generateResultsHtml "index.js" "17001" false sampleFmt [sampleCreate]
        JSValue.null =
      generateResultsHtml "index.js" "17001" false sampleFmt [sampleCreate]
        (JSValue.obj []) := by
  have h := c10_falsy_state_empty_object JSValue.null rfl
  exact ⟨h.1, h.2.1, h.2.2.2 "index.js" "17001" false sampleFmt [sampleCreate]⟩
